import Mathlib

/-!
Verification development for the Project-Relexwise document-processing
backend.  The definitions below are shallow embeddings of the Python
source under `backend/`:

* `backend/app/services/vector_processing.py`   — chunking, embedding, vector store
* `backend/app/services/vector_processing_friend.py` — the LlamaIndex-based vector path
* `backend/app/services/metadata_extraction.py` — metadata normalisation
* `backend/app/services/processing_queue.py`    — worker pool, retry, status store

External collaborators (tokenizer, embedding model, LLM, HTTP rate lookup,
uuid generation) are modelled as explicit function parameters or id
supplies; machine floats are modelled over `ℚ`; Python exceptions are
modelled with `Except`.
-/

/-! ## Python string helpers -/

/-- The whitespace set of Python's `str.strip` / regex `\s` (ASCII part). -/
def isPySpace (c : Char) : Bool :=
  c = ' ' || c = '\t' || c = '\n' || c = '\r' || c = Char.ofNat 11 || c = Char.ofNat 12

/-- `str.strip()` on the character list. -/
def pyStripList (l : List Char) : List Char :=
  ((l.dropWhile isPySpace).reverse.dropWhile isPySpace).reverse

/-- Python `s.strip()`. -/
def pyStrip (s : String) : String := ⟨pyStripList s.data⟩

/-- Python `s.lower()` (ASCII). -/
def pyLower (s : String) : String := ⟨s.data.map Char.toLower⟩

/-- Python `s.upper()` (ASCII). -/
def pyUpper (s : String) : String := ⟨s.data.map Char.toUpper⟩

/-! ## Chunking — `VectorProcessingService.chunk_text` (vector_processing.py 37-84)

The tiktoken tokenizer is external: `encode`/`decode` are parameters.
`chunkWindows` is the loop
`for i in range(0, len(tokens), chunk_size - chunk_overlap)` with the
trailing `if i + chunk_size >= len(tokens): break`.  (For a
non-positive step Python's `range` would raise / be empty; the model
returns `[]` in that case.) -/

def chunkWindows (tokens : List Nat) (size step : Nat) : Nat → List (List Nat)
  | i =>
    if h : i < tokens.length ∧ 0 < step then
      let w := (tokens.drop i).take size
      if tokens.length ≤ i + size then [w]
      else w :: chunkWindows tokens size step (i + step)
    else []
termination_by i => tokens.length - i
decreasing_by omega

/-- `chunk_text`: guard on empty/whitespace input, tokenize, window,
decode each window, strip, keep the non-empty chunks.  The tokenizer
never fails in the model, so the sentence-split fallback branch of the
source is unreachable here. -/
def chunk_text (encode : String → List Nat) (decode : List Nat → String)
    (chunk_size chunk_overlap : Nat) (text : String) : List String :=
  if text = "" || pyStrip text = "" then []
  else
    let tokens := encode text
    if tokens = [] then []
    else
      let ws := chunkWindows tokens chunk_size (chunk_size - chunk_overlap) 0
      (ws.map fun w => pyStrip (decode w)).filter (fun s => s ≠ "")

/-- `settings.chunk_size` (config.py). -/
def settings_chunk_size : Nat := 1024

/-- `settings.chunk_overlap` (config.py). -/
def settings_chunk_overlap : Nat := 200

/-! ## Vector store — `VectorProcessingService.store_vectors` (121-175)

One ChromaDB record per stored chunk.  `collection.add` is modelled as
list append; the md5 hex digest is an external parameter. -/

structure ChromaEntry where
  id : String
  document : String
  embedding : List ℚ
  file_id : String
  chunk_index : Nat
  text_length : Nat
  chunk_hash : String
deriving DecidableEq, Repr

def store_vectors (md5hex : String → String) (file_id : String)
    (chunks : List String) (embeddings : List (List ℚ))
    (store : List ChromaEntry) : Except String (Bool × List ChromaEntry) :=
  if chunks.length ≠ embeddings.length then
    .error "Failed to store vectors: Number of chunks and embeddings don't match"
  else
    -- `if chunk.strip() and embedding` : non-empty stripped text, non-empty vector
    let valid_data := (chunks.zip embeddings).enum.filter
      (fun p => pyStrip p.2.1 ≠ "" && p.2.2 ≠ [])
    if valid_data = [] then
      -- source line 139: logs a warning and returns True
      .ok (true, store)
    else
      let entries := valid_data.map (fun p =>
        ⟨file_id ++ "_chunk_" ++ toString p.1, p.2.1, p.2.2,
         file_id, p.1, p.2.1.length, md5hex p.2.1⟩)
      .ok (true, store ++ entries)

/-! ## `VectorProcessingService.process_text_to_vectors` (177-214)

The embedding collaborator is the parameter `gen`. -/

def process_text_to_vectors (encode : String → List Nat) (decode : List Nat → String)
    (md5hex : String → String)
    (gen : List String → Except String (List (List ℚ)))
    (file_id text : String) (store : List ChromaEntry) :
    Except String (Bool × List ChromaEntry) :=
  if text = "" || pyStrip text = "" then .error "No text content to process"
  else
    let chunks := chunk_text encode decode settings_chunk_size settings_chunk_overlap text
    if chunks = [] then .error "No valid text chunks generated"
    else
      match gen chunks with
      | .error e => .error e
      | .ok embeddings =>
        if embeddings = [] then .error "No embeddings generated"
        else store_vectors md5hex file_id chunks embeddings store

/-! ## Friend vector path — `FriendVectorProcessingService.process_text_to_vectors`
(vector_processing_friend.py 77-106)

`index.insert(document)` runs the LlamaIndex node parser (external,
parameter `split`) and appends nodes whose ids are freshly generated
uuid4 values; the uuid supply is modelled as a counter.  Both branches
of `if self.vector_service.index is None` insert the document's nodes. -/

structure LlamaNode where
  node_id : Nat
  text : String
  file_id : String
  file_name : String
deriving DecidableEq, Repr

structure LlamaIndexState where
  nodes : List LlamaNode
  nextId : Nat
deriving DecidableEq, Repr

def llamaInsertNodes (split : String → List String) (file_id text : String)
    (st : LlamaIndexState) : LlamaIndexState :=
  let pieces := split text
  let fresh := (List.range pieces.length).map (fun j => st.nextId + j)
  ⟨st.nodes ++ (pieces.zip fresh).map
      (fun p => ⟨p.2, p.1, file_id, "text_document_" ++ file_id⟩),
   st.nextId + pieces.length⟩

def friend_process_text_to_vectors (split : String → List String)
    (file_id text : String) (st : LlamaIndexState) : LlamaIndexState :=
  llamaInsertNodes split file_id text st

/-- The nodes of a given document in the index. -/
def nodesFor (file_id : String) (st : LlamaIndexState) : List LlamaNode :=
  st.nodes.filter (fun n => n.file_id = file_id)

/-! ## Dates — `MetadataExtractionService._normalize_date` (metadata_extraction.py 96-128)

CPython `datetime.strptime` compiles each directive to a regex
(`_strptime.TimeRE`): `%Y` is exactly four digits, `%d` is
`3[0-1]|[1-2]\d|0[1-9]|[1-9]| [1-9]`, `%m` is `1[0-2]|0[1-9]|[1-9]`,
`%B`/`%b` are the month-name alternations (case-insensitive, longest
first), a literal space matches `\s+`, and the whole input must be
consumed.  The model mirrors those alternations, in the same order,
with backtracking. -/

inductive FmtTok where
  | lit (c : Char)
  | ws
  | day
  | month
  | monthB
  | monthb
  | year
deriving DecidableEq

/-- Regex alternatives for `%d`, in CPython order; each returns the
captured value and the remaining input. -/
def dayAlts (input : List Char) : List (Nat × List Char) :=
  (match input with
   | '3' :: c :: t => if c = '0' || c = '1' then [(30 + (c.toNat - 48), t)] else []
   | _ => []) ++
  (match input with
   | c1 :: c2 :: t =>
      if (c1 = '1' || c1 = '2') && c2.isDigit then
        [((c1.toNat - 48) * 10 + (c2.toNat - 48), t)]
      else []
   | _ => []) ++
  (match input with
   | '0' :: c :: t => if '1' ≤ c && c ≤ '9' then [(c.toNat - 48, t)] else []
   | _ => []) ++
  (match input with
   | c :: t => if '1' ≤ c && c ≤ '9' then [(c.toNat - 48, t)] else []
   | _ => []) ++
  (match input with
   | ' ' :: c :: t => if '1' ≤ c && c ≤ '9' then [(c.toNat - 48, t)] else []
   | _ => [])

/-- Regex alternatives for `%m`, in CPython order. -/
def monthAlts (input : List Char) : List (Nat × List Char) :=
  (match input with
   | '1' :: c :: t => if '0' ≤ c && c ≤ '2' then [(10 + (c.toNat - 48), t)] else []
   | _ => []) ++
  (match input with
   | '0' :: c :: t => if '1' ≤ c && c ≤ '9' then [(c.toNat - 48, t)] else []
   | _ => []) ++
  (match input with
   | c :: t => if '1' ≤ c && c ≤ '9' then [(c.toNat - 48, t)] else []
   | _ => [])

/-- `%Y`: exactly four digits. -/
def yearAlts (input : List Char) : List (Nat × List Char) :=
  match input with
  | a :: b :: c :: d :: t =>
    if a.isDigit && b.isDigit && c.isDigit && d.isDigit then
      [((a.toNat - 48) * 1000 + (b.toNat - 48) * 100 + (c.toNat - 48) * 10 + (d.toNat - 48), t)]
    else []
  | _ => []

/-- Month names of `%B` in CPython's alternation order (length-descending). -/
def monthNamesFull : List (String × Nat) :=
  [("september", 9), ("february", 2), ("november", 11), ("december", 12),
   ("january", 1), ("october", 10), ("august", 8), ("march", 3),
   ("april", 4), ("june", 6), ("july", 7), ("may", 5)]

/-- Month names of `%b` in CPython's alternation order. -/
def monthNamesAbbr : List (String × Nat) :=
  [("jan", 1), ("feb", 2), ("mar", 3), ("apr", 4), ("may", 5), ("jun", 6),
   ("jul", 7), ("aug", 8), ("sep", 9), ("oct", 10), ("nov", 11), ("dec", 12)]

/-- Case-insensitive prefix match of a month name. -/
def matchName (name : List Char) (input : List Char) : Option (List Char) :=
  match name, input with
  | [], rest => some rest
  | _ :: _, [] => none
  | n :: ns, c :: cs => if c.toLower = n then matchName ns cs else none

def nameAlts (names : List (String × Nat)) (input : List Char) : List (Nat × List Char) :=
  names.foldr (fun p acc =>
    match matchName p.1.data input with
    | some rest => (p.2, rest) :: acc
    | none => acc) []

/-- `\s+`: one or more whitespace characters, greedy (longest split first). -/
def wsAlts (input : List Char) : List (Unit × List Char) :=
  let run := (input.takeWhile isPySpace).length
  (List.range run).map (fun j => ((), input.drop (run - j)))

/-- Backtracking matcher over a directive list; `fuel` bounds the
recursion depth (one unit per directive). -/
def matchToks (fuel : Nat) (toks : List FmtTok) (input : List Char)
    (d m y : Option Nat) : Option (Nat × Nat × Nat) :=
  match fuel with
  | 0 => none
  | fuel + 1 =>
    match toks with
    | [] =>
      -- strptime: "unconverted data remains" unless the input is consumed
      match input with
      | [] =>
        match d, m, y with
        | some d, some m, some y => some (d, m, y)
        | _, _, _ => none
      | _ :: _ => none
    | .lit c :: rest =>
      match input with
      | c' :: t => if c' = c then matchToks fuel rest t d m y else none
      | [] => none
    | .ws :: rest =>
      (wsAlts input).firstM (fun p => matchToks fuel rest p.2 d m y)
    | .day :: rest =>
      (dayAlts input).firstM (fun p => matchToks fuel rest p.2 (some p.1) m y)
    | .month :: rest =>
      (monthAlts input).firstM (fun p => matchToks fuel rest p.2 d (some p.1) y)
    | .monthB :: rest =>
      (nameAlts monthNamesFull input).firstM (fun p => matchToks fuel rest p.2 d (some p.1) y)
    | .monthb :: rest =>
      (nameAlts monthNamesAbbr input).firstM (fun p => matchToks fuel rest p.2 d (some p.1) y)
    | .year :: rest =>
      (yearAlts input).firstM (fun p => matchToks fuel rest p.2 d m (some p.1))

/-- `datetime` day-count per month (proleptic Gregorian, as CPython). -/
def isLeapYear (y : Nat) : Bool := y % 4 = 0 && (y % 100 ≠ 0 || y % 400 = 0)

def daysInMonth (y m : Nat) : Nat :=
  if m = 2 then (if isLeapYear y then 29 else 28)
  else if m = 4 || m = 6 || m = 9 || m = 11 then 30
  else 31

/-- `datetime.strptime(s, pat)` restricted to day/month/year directives:
regex match plus the `datetime(year, month, day)` range validation. -/
def pyStrptimeDMY (pat : List FmtTok) (s : String) : Option (Nat × Nat × Nat) :=
  match matchToks (pat.length + 1) pat s.data none none none with
  | none => none
  | some (d, m, y) =>
    if 1 ≤ y && y ≤ 9999 && 1 ≤ m && m ≤ 12 && 1 ≤ d && d ≤ daysInMonth y m then
      some (d, m, y)
    else none

/-- The twelve `date_patterns` of `_normalize_date`, in source order. -/
def date_patterns : List (List FmtTok) :=
  [ [.year, .lit '-', .month, .lit '-', .day],      -- %Y-%m-%d
    [.day, .lit '-', .month, .lit '-', .year],      -- %d-%m-%Y
    [.month, .lit '-', .day, .lit '-', .year],      -- %m-%d-%Y
    [.day, .lit '/', .month, .lit '/', .year],      -- %d/%m/%Y
    [.month, .lit '/', .day, .lit '/', .year],      -- %m/%d/%Y
    [.year, .lit '/', .month, .lit '/', .day],      -- %Y/%m/%d
    [.day, .lit '.', .month, .lit '.', .year],      -- %d.%m.%Y
    [.year, .lit '.', .month, .lit '.', .day],      -- %Y.%m.%d
    [.monthB, .ws, .day, .lit ',', .ws, .year],     -- %B %d, %Y
    [.monthb, .ws, .day, .lit ',', .ws, .year],     -- %b %d, %Y
    [.day, .ws, .monthB, .ws, .year],               -- %d %B %Y
    [.day, .ws, .monthb, .ws, .year] ]              -- %d %b %Y

/-- Try the patterns in order, as the source's `for pattern in date_patterns`. -/
def firstParse (pats : List (List FmtTok)) (s : String) : Option (Nat × Nat × Nat) :=
  match pats with
  | [] => none
  | p :: rest =>
    match pyStrptimeDMY p s with
    | some r => some r
    | none => firstParse rest s

/-- Decimal digits of a natural number, most significant first; the
fuel argument makes the recursion structural so terms reduce in the
kernel. -/
def natReprAux : Nat → Nat → List Char
  | 0, _ => []
  | fuel + 1, n =>
    if n = 0 then []
    else natReprAux fuel (n / 10) ++ [Char.ofNat (48 + n % 10)]

def natRepr (n : Nat) : String :=
  if n = 0 then "0" else ⟨natReprAux n n⟩

/-- Zero-pad to two digits, as `%d`/`%m` of `strftime`. -/
def pad2 (n : Nat) : String := if n < 10 then "0" ++ natRepr n else natRepr n

/-- `parsed_date.strftime("%d-%m-%Y")` (glibc: `%Y` is not zero-padded). -/
def fmtDDMMYYYY (d m y : Nat) : String := pad2 d ++ "-" ++ pad2 m ++ "-" ++ natRepr y

/-- `re.sub(r'(\d+)(st|nd|rd|th)', r'\1', s)`: the greedy digit run is
maximal, so a failed suffix match cannot be rescued by backtracking. -/
def stripOrd (fuel : Nat) (l : List Char) : List Char :=
  match fuel, l with
  | 0, l => l
  | _ + 1, [] => []
  | f + 1, c :: t =>
    if c.isDigit then
      let run := (c :: t).takeWhile Char.isDigit
      let rest := (c :: t).dropWhile Char.isDigit
      match rest with
      | a :: b :: r =>
        if (a = 's' && b = 't') || (a = 'n' && b = 'd') ||
           (a = 'r' && b = 'd') || (a = 't' && b = 'h') then
          run ++ stripOrd f r
        else run ++ stripOrd f rest
      | _ => run ++ stripOrd f rest
    else c :: stripOrd f t

/-- `_normalize_date` (metadata_extraction.py 96-128). -/
def normalize_date (date_string : String) : String :=
  if date_string = "" || pyLower (pyStrip date_string) ∈ ["na", "", "n/a"] then "NA"
  else
    let ds := pyStrip date_string
    match firstParse date_patterns ds with
    | some (d, m, y) => fmtDDMMYYYY d m y
    | none =>
      let cleaned : String := ⟨stripOrd ds.data.length ds.data⟩
      match firstParse date_patterns cleaned with
      | some (d, m, y) => fmtDDMMYYYY d m y
      | none => ds

/-! ## Python values and dicts

The field maps produced by `json.loads` hold strings, `None`, numbers
and booleans; floats behave like ints for everything the service does
with them (`str()`, truthiness), so numbers are modelled by `vint`.
A dict is an insertion-ordered association list; `dSet` updates the
first occurrence of a key in place, otherwise appends. -/

inductive PyVal where
  | vnone
  | vstr (s : String)
  | vint (n : Int)
  | vbool (b : Bool)
deriving DecidableEq, Repr

/-- Python `str()` of a scalar value. -/
def pyStr : PyVal → String
  | .vnone => "None"
  | .vstr s => s
  | .vint n => if n < 0 then "-" ++ natRepr n.natAbs else natRepr n.natAbs
  | .vbool b => if b then "True" else "False"

/-- Python truthiness of a scalar value. -/
def pyFalsy : PyVal → Bool
  | .vnone => true
  | .vstr s => s = ""
  | .vint n => n = 0
  | .vbool b => !b

abbrev PyDict := List (String × PyVal)

def dLookup (m : PyDict) (k : String) : Option PyVal :=
  match m with
  | [] => none
  | (k', v) :: t => if k' = k then some v else dLookup t k

def dGet (m : PyDict) (k : String) (dflt : PyVal) : PyVal := (dLookup m k).getD dflt

def dContains (m : PyDict) (k : String) : Bool := (dLookup m k).isSome

def dSet (m : PyDict) (k : String) (v : PyVal) : PyDict :=
  match m with
  | [] => [(k, v)]
  | (k', v') :: t => if k' = k then (k, v) :: t else (k', v') :: dSet t k v

/-- The string stored at a key (the pipeline only calls this where the
value is known to be a string). -/
def getStr (m : PyDict) (k : String) : String :=
  match dLookup m k with
  | some (.vstr s) => s
  | _ => ""

/-! ## Currency — `_convert_currency_to_usd` (metadata_extraction.py 130-185)

Float arithmetic is modelled over `ℚ`; `f"{x:.2f}"` is rounding
half-to-even at two decimals.  The live exchange-rate HTTP call is the
parameter `fetchRate`. -/

/-- Python `float()` on a string of digits and at most one dot. -/
def pyParseFloat (l : List Char) : Option ℚ :=
  let digitsVal : List Char → ℚ := fun ds =>
    (ds.foldl (fun acc c => acc * 10 + (c.toNat - 48)) (0 : ℕ) : ℕ)
  match l.splitOn '.' with
  | [ip] => if ip ≠ [] && ip.all Char.isDigit then some (digitsVal ip) else none
  | [ip, fp] =>
    if (ip ≠ [] || fp ≠ []) && ip.all Char.isDigit && fp.all Char.isDigit then
      some (digitsVal ip + digitsVal fp / ((10 : ℚ) ^ fp.length))
    else none
  | _ => none

/-- The comma heuristics of lines 142-149. -/
def commaLogic (c : List Char) : List Char :=
  if ',' ∈ c && '.' ∈ c then c.filter (· ≠ ',')
  else if ',' ∈ c then
    let parts := c.splitOn ','
    if parts.length = 2 && (parts.getD 1 []).length ≤ 3 then c.filter (· ≠ ',')
    else c.map (fun ch => if ch = ',' then '.' else ch)
  else c

/-- Round half-to-even to an integer. -/
def roundHalfEven (q : ℚ) : ℤ :=
  let f := ⌊q⌋
  let r := q - f
  if r < 1/2 then f else if 1/2 < r then f + 1 else if f % 2 = 0 then f else f + 1

/-- `f"{q:.2f}"` for a non-negative amount. -/
def fmt2 (q : ℚ) : String :=
  let n := (roundHalfEven (q * 100)).toNat
  natRepr (n / 100) ++ "." ++ pad2 (n % 100)

/-- The hard-coded `exchange_rates` table (lines 160-163). -/
def exchange_rates (c : String) : Option ℚ :=
  if c = "EUR" then some (108/100) else if c = "GBP" then some (126/100)
  else if c = "INR" then some (12/1000) else if c = "JPY" then some (67/10000)
  else if c = "CAD" then some (74/100) else if c = "AUD" then some (66/100)
  else if c = "CHF" then some (110/100) else if c = "CNY" then some (14/100)
  else if c = "SGD" then some (74/100) else none

def convert_currency_to_usd (fetchRate : String → Option ℚ)
    (amount currency : PyVal) : Except String String :=
  if pyFalsy amount then .ok "NA"
  else match amount with
  | .vstr a =>
    if pyLower (pyStrip a) ∈ ["na", "", "n/a"] then .ok "NA"
    else if pyFalsy currency then .ok "NA"
    else match currency with
    | .vstr c =>
      if pyLower (pyStrip c) ∈ ["na", "", "n/a"] then .ok "NA"
      else
        let cleaned := commaLogic ((pyStrip a).data.filter
          (fun ch => ch.isDigit || ch = '.' || ch = ','))
        match pyParseFloat cleaned with
        | none => .ok "NA"
        | some q =>
          if pyUpper c ∈ ["USD", "US$", "$"] then .ok (fmt2 q)
          else match exchange_rates (pyUpper c) with
          | some r => .ok (fmt2 (q * r))
          | none =>
            match fetchRate (pyUpper c) with
            | some r => .ok (fmt2 (q * r))
            | none => .ok "NA"
    | _ => .error "AttributeError: strip on non-string currency"
  | _ => .error "AttributeError: strip on non-string amount"

/-! ## Contract status — `_calculate_contract_status_and_tag` (187-233)

`datetime` instants are integer seconds on the proleptic-Gregorian day count
(Howard Hinnant's `days_from_civil`, which matches CPython's
`date.toordinal` up to a constant); `now` is `datetime.now()`.
`timedelta.days` is floor division by 86400. -/

def daysFromCivil (y m d : Int) : Int :=
  let y' := if m ≤ 2 then y - 1 else y
  let era := Int.fdiv y' 400
  let yoe := y' - era * 400
  let mp := if 2 < m then m - 3 else m + 9
  let doy := Int.fdiv (153 * mp + 2) 5 + d - 1
  let doe := yoe * 365 + Int.fdiv yoe 4 - Int.fdiv yoe 100 + doy
  era * 146097 + doe - 719468

/-- Seconds of midnight of a parsed `%d-%m-%Y` date. -/
def dateSeconds (d m y : Nat) : Int := 86400 * daysFromCivil y m d

/-- The single pattern `"%d-%m-%Y"` used by the status calculation. -/
def patDMY : List FmtTok := [.day, .lit '-', .month, .lit '-', .year]

def calc_contract_status_and_tag (now : Int) (start_date end_date : String)
    (metadata : PyDict) : Except String (String × String) :=
  match dGet metadata "vendor_name" (.vstr "NA") with
  | .vstr v0 =>
    let vendor := pyStrip v0
    if vendor ∈ ["NA", "", "n/a"] || vendor.length < 3 then .ok ("Draft", "NA")
    else
      -- the try block: a ValueError from either strptime yields ("Draft", "NA")
      let parse : String → Except Unit (Option Int) := fun ds =>
        if ds ≠ "" && ds ∉ ["NA", "", "n/a"] then
          match pyStrptimeDMY patDMY ds with
          | some (d, m, y) => .ok (some (dateSeconds d m y))
          | none => .error ()
        else .ok none
      match parse start_date, parse end_date with
      | .error _, _ => .ok ("Draft", "NA")
      | _, .error _ => .ok ("Draft", "NA")
      | .ok sdt, .ok edt =>
        let status :=
          match sdt, edt with
          | none, _ => "Draft"
          | some _, none => "Active"
          | some s, some e =>
            if e < now then "Expired"
            else if s ≤ now && now ≤ e then "Active"
            else "Draft"
        let tag :=
          match edt with
          | some e =>
            if status = "Active" then
              let days := Int.fdiv (e - now) 86400
              if days < 30 then "Expiry < 30 days"
              else if 30 ≤ days && days ≤ 90 then "Expiry 30 to 90 days"
              else "Expiry > 90 days"
            else "NA"
          | none => "NA"
        .ok (status, tag)
  | _ => .error "AttributeError: strip on non-string vendor_name"

/-! ## `_validate_and_clean_metadata` (metadata_extraction.py 462-536)

The function is the sequential composition of the blocks of the source,
in source order.  `now` is `datetime.now()` and `fetchRate` the live
exchange-rate lookup. -/

def valid_contract_types : List String :=
  ["MSA", "SOW", "Amendment", "Agreement", "Order Form", "Change Request", "Other"]

def valid_scope_types : List String :=
  ["Managed Services", "Time & Material", "Hardware", "Software", "Maintenance", "Other"]

def required_fields : List String :=
  ["contract_name", "start_date", "end_date", "vendor_name", "contract_duration",
   "contract_value_local", "currency", "contract_value_usd",
   "contract_status", "contract_type", "scope_of_services", "contract_tag",
   "auto_renewal", "payment_terms", "liability_cap", "termination_for_convenience",
   "price_escalation"]

/-- Lines 477-479: `if field not in metadata or metadata[field] is None`. -/
def fillRequired (m : PyDict) : PyDict :=
  required_fields.foldl
    (fun m f =>
      if dLookup m f = none || dLookup m f = some .vnone then dSet m f (.vstr "NA")
      else m) m

/-- Lines 482-483: normalize both dates (`str(...)` first). -/
def normalizeDates (m : PyDict) : PyDict :=
  let m := dSet m "start_date" (.vstr (normalize_date (pyStr (dGet m "start_date" (.vstr "NA")))))
  dSet m "end_date" (.vstr (normalize_date (pyStr (dGet m "end_date" (.vstr "NA")))))

/-- Lines 486-490: fill `contract_value_usd` when absent. -/
def fillUsd (fetchRate : String → Option ℚ) (m : PyDict) : Except String PyDict :=
  let local_value := dGet m "contract_value_local" (.vstr "NA")
  let currency := dGet m "currency" (.vstr "NA")
  if dLookup m "contract_value_usd" = none ||
     dLookup m "contract_value_usd" = some (.vstr "NA") ||
     dLookup m "contract_value_usd" = some (.vstr "") ||
     dLookup m "contract_value_usd" = some .vnone then
    (convert_currency_to_usd fetchRate local_value currency).map
      (fun usd => dSet m "contract_value_usd" (.vstr usd))
  else .ok m

/-- The dict state just before the status derivation (lines 462-490). -/
def afterUsd (fetchRate : String → Option ℚ) (m0 : PyDict) : Except String PyDict :=
  fillUsd fetchRate (normalizeDates (fillRequired m0))

/-- The derived status/tag pair of lines 493-497. -/
def derivedStatusTag (now : Int) (fetchRate : String → Option ℚ) (m0 : PyDict) :
    Except String (String × String) := do
  let m ← afterUsd fetchRate m0
  calc_contract_status_and_tag now (getStr m "start_date") (getStr m "end_date") m

/-- Python `value in list_of_strings` for an optional dict value: true
exactly when the value is one of the strings. -/
def pyValInStrings (v : Option PyVal) (l : List String) : Bool :=
  match v with
  | some (.vstr s) => s ∈ l
  | _ => false

/-- Lines 503-507: contract type / scope validation. -/
def validTypeScope (m : PyDict) : PyDict :=
  let m1 := if pyValInStrings (dLookup m "contract_type") valid_contract_types then m
            else dSet m "contract_type" (.vstr "Other")
  if pyValInStrings (dLookup m1 "scope_of_services") valid_scope_types then m1
  else dSet m1 "scope_of_services" (.vstr "Other")

/-- Lines 510-516: the clean-up loop over `metadata.items()`. -/
def cleanupVal : PyVal → PyVal
  | .vnone => .vstr "NA"
  | .vstr s => if pyStrip s = "" then .vstr "NA" else .vstr s
  | v => .vstr (pyStr v)

def cleanup (m : PyDict) : PyDict := m.map (fun p => (p.1, cleanupVal p.2))

/-- Lines 519-522: legacy `contract_value`. -/
def legacyValue (m : PyDict) : PyDict :=
  if dContains m "contract_value_local" &&
     !(dLookup m "contract_value_local" = some (.vstr "NA")) then
    dSet m "contract_value" (dGet m "contract_value_local" .vnone)
  else dSet m "contract_value" (.vstr "NA")

/-- Lines 525-530: `contract_name` fallback. -/
def nameFallback (m : PyDict) : PyDict :=
  if dGet m "contract_name" (.vstr "NA") = .vstr "NA" then
    let vendor := dGet m "vendor_name" (.vstr "NA")
    if !(vendor = .vstr "NA") then
      dSet m "contract_name" (.vstr ("Contract with " ++ pyStr vendor))
    else dSet m "contract_name" (.vstr "NA")
  else m

/-- `_validate_and_clean_metadata`, end to end.  A Python exception
(`AttributeError` from `.strip()` on a non-string) is `.error`. -/
def validate_and_clean_metadata (now : Int) (fetchRate : String → Option ℚ)
    (m0 : PyDict) : Except String PyDict := do
  let m ← afterUsd fetchRate m0
  let (st, tag) ← calc_contract_status_and_tag now (getStr m "start_date") (getStr m "end_date") m
  let m := dSet m "contract_status" (.vstr st)
  let m := dSet m "contract_tag" (.vstr tag)
  let m := validTypeScope m
  let m := cleanup m
  let m := legacyValue m
  pure (nameFallback m)

/-! ## Status store — `ProcessingQueue._process_file` (processing_queue.py 155-249)

The SQLAlchemy session is modelled as a pending write list over a
committed state: `execute`/`add` append a pending write, `commit`
applies them, `rollback` discards them.  The collaborators
(text extraction, the friend vector path, metadata extraction) are
`Except`-valued parameters; the WebSocket notifications have no state
effect (their failures are swallowed by the source). -/

structure ErrorRecord where
  error_type : String
  error_message : String
  error_details : String
  resolved : Bool
deriving DecidableEq, Repr

structure DBState where
  processing_attempts : Nat
  vector_status : String
  metadata_status : String
  vector_error : Option String
  metadata_error : Option String
  errors : List ErrorRecord
  metadata_rows : Nat
deriving DecidableEq, Repr

/-- A fresh `File` row before any processing. -/
def initialDB : DBState := ⟨0, "pending", "pending", none, none, [], 0⟩

inductive DBWrite where
  | incAttempts
  | setVectorStatus (s : String)
  | setMetadataStatus (s : String)
  | setVectorError (e : String)
  | setMetadataError (e : String)
  | addError (r : ErrorRecord)
  | addMetadataRow
deriving DecidableEq

def applyWrite (db : DBState) : DBWrite → DBState
  | .incAttempts => { db with processing_attempts := db.processing_attempts + 1 }
  | .setVectorStatus s => { db with vector_status := s }
  | .setMetadataStatus s => { db with metadata_status := s }
  | .setVectorError e => { db with vector_error := some e }
  | .setMetadataError e => { db with metadata_error := some e }
  | .addError r => { db with errors := db.errors ++ [r] }
  | .addMetadataRow => { db with metadata_rows := db.metadata_rows + 1 }

/-- `db.commit()` of a pending write list. -/
def commitW (db : DBState) (pending : List DBWrite) : DBState := pending.foldl applyWrite db

/-- The collaborator calls made inside one attempt. -/
structure Collaborators where
  extract_text : Except String String
  process_vectors : String → Except String Unit
  extract_metadata : String → Except String Unit

/-- Lines 235-249: rollback, then log the error, mark BOTH stages
failed, set both error columns, and commit.  The exception is not
re-raised. -/
def failEffects (filename e : String) : List DBWrite :=
  let msg := "Error processing file " ++ filename ++ ": " ++ e
  [.addError ⟨"processing", msg, e, false⟩,
   .setVectorStatus "failed", .setMetadataStatus "failed",
   .setVectorError msg, .setMetadataError msg]

/-- `_process_file`.  The first component is the committed DB state on
return; the second is the exception escaping the call — always `.ok`
because the `except` block at 235-249 swallows the error (assuming the
status-store writes themselves succeed). -/
def process_file (c : Collaborators) (filename : String) (db : DBState) :
    DBState × Except String Unit :=
  match c.extract_text with
  | .error e => (commitW db (failEffects filename e), .ok ())
  | .ok text =>
    match c.process_vectors text with
    | .error e => (commitW db (failEffects filename e), .ok ())
    | .ok _ =>
      match c.extract_metadata text with
      | .error e => (commitW db (failEffects filename e), .ok ())
      | .ok _ =>
        (commitW db
          [.incAttempts, .setVectorStatus "processing", .setVectorStatus "completed",
           .setMetadataStatus "processing", .addMetadataRow, .setMetadataStatus "completed"],
         .ok ())

/-- Whether an attempt of `_process_file` hits the `except` block. -/
def attemptFails (c : Collaborators) : Prop :=
  (∃ e, c.extract_text = .error e) ∨
  (∃ t, c.extract_text = .ok t ∧
    ((∃ e, c.process_vectors t = .error e) ∨
     ((∃ u, c.process_vectors t = .ok u) ∧ ∃ e, c.extract_metadata t = .error e)))

/-- The worker's retry loop (processing_queue.py 126-138): up to
`left` attempts; a raised exception triggers a retry (after the 5 s
sleep, which has no state effect); a normal return breaks.  Returns
the final DB state and the number of attempts executed. -/
def retry_loop (run : DBState → DBState × Except String Unit) :
    Nat → DBState → DBState × Nat
  | 0, db => (db, 0)
  | left + 1, db =>
    match run db with
    | (db', .ok _) => (db', 1)
    | (db', .error _) =>
      if left = 0 then (db', 1)
      else
        let r := retry_loop run left db'
        (r.1, r.2 + 1)

/-- One queue task processed by `_worker`: `max_retries = 3`. -/
def worker_process_task (c : Collaborators) (filename : String) (db : DBState) :
    DBState × Nat :=
  retry_loop (process_file c filename) 3 db

/-! ## Worker pool stop/cancel — `ProcessingQueue.start/stop/_worker`
(processing_queue.py 26-153)

A small-step trace semantics for one worker.  The worker is either
blocked on `queue.get` (`waiting`), inside `_process_file` with `k`
awaits still ahead (`running k`), or out of its loop (`finished`).
`stop()` (lines 39-52) sets `is_running := false` AND calls
`task.cancel()`; asyncio delivers the cancellation as a
`CancelledError` at the task's next await point, where it propagates
past both `except Exception` handlers to the
`except asyncio.CancelledError: break` at line 145. -/

inductive WorkerPhase where
  | waiting
  | running (k : Nat)
  | finished
deriving DecidableEq

structure PoolState where
  is_running : Bool
  cancelRequested : Bool
  phase : WorkerPhase
  queued : Nat
  completedJobs : Nat
deriving DecidableEq

inductive PStep : PoolState → PoolState → Prop
  /-- `queue.get` times out after 1 s; `while self.is_running` loops. -/
  | timeout (s : PoolState) :
      s.is_running = true → s.phase = .waiting → s.queued = 0 →
      PStep s s
  /-- loop-boundary check: the flag is down, the worker leaves its loop. -/
  | boundaryStop (s : PoolState) :
      s.is_running = false → s.phase = .waiting →
      PStep s { s with phase := .finished }
  /-- a task is dequeued and `_process_file` starts with `k` awaits ahead. -/
  | startJob (s : PoolState) (k : Nat) :
      s.is_running = true → s.phase = .waiting → 0 < s.queued →
      PStep s { s with phase := .running k, queued := s.queued - 1 }
  /-- one internal await of the job completes. -/
  | jobStep (s : PoolState) (k : Nat) :
      s.phase = .running (k + 1) →
      PStep s { s with phase := .running k }
  /-- the job returns; the worker is back at the `while` check. -/
  | jobDone (s : PoolState) :
      s.phase = .running 0 →
      PStep s { s with
        phase := if s.is_running then .waiting else .finished,
        completedJobs := s.completedJobs + 1 }
  /-- `stop()`: `self.is_running = False` and `worker.cancel()`. -/
  | stopCall (s : PoolState) :
      PStep s { s with is_running := false, cancelRequested := true }
  /-- the pending `CancelledError` is delivered at the current await
  point — also in the middle of a job — and line 145 breaks the loop. -/
  | cancelDeliver (s : PoolState) :
      s.cancelRequested = true → s.phase ≠ .finished →
      PStep s { s with phase := .finished }

/-- Reflexive-transitive closure of the pool step relation. -/
inductive PSteps : PoolState → PoolState → Prop
  | refl (s : PoolState) : PSteps s s
  | tail {s t u : PoolState} : PSteps s t → PStep t u → PSteps s u

/-! ## Helper lemmas: dicts -/

theorem dLookup_dSet_same (m : PyDict) (k : String) (v : PyVal) :
    dLookup (dSet m k v) k = some v := by
  induction m with
  | nil => simp [dSet, dLookup]
  | cons p t ih =>
    by_cases h : p.1 = k
    · simp [dSet, dLookup, h]
    · simp [dSet, dLookup, h, ih]

theorem dLookup_dSet_ne (m : PyDict) (k k' : String) (v : PyVal) (h : k' ≠ k) :
    dLookup (dSet m k v) k' = dLookup m k' := by
  induction m with
  | nil => simp [dSet, dLookup, Ne.symm h]
  | cons p t ih =>
    by_cases hp : p.1 = k
    · subst hp
      simp [dSet, dLookup, Ne.symm h]
    · simp [dSet, dLookup, hp, ih]

theorem dContains_dSet (m : PyDict) (k k' : String) (v : PyVal) (h : dContains m k' = true) :
    dContains (dSet m k v) k' = true := by
  by_cases hk : k' = k
  · subst hk; simp [dContains, dLookup_dSet_same]
  · simpa [dContains, dLookup_dSet_ne m k k' v hk] using h

theorem dContains_dSet_same (m : PyDict) (k : String) (v : PyVal) :
    dContains (dSet m k v) k = true := by
  simp [dContains, dLookup_dSet_same]

theorem mem_of_dLookup (m : PyDict) (k : String) (v : PyVal) (h : dLookup m k = some v) :
    (k, v) ∈ m := by
  induction m with
  | nil => simp [dLookup] at h
  | cons p t ih =>
    obtain ⟨a, b⟩ := p
    by_cases hp : a = k
    · subst hp
      simp [dLookup] at h
      subst h
      exact List.mem_cons_self _ _
    · simp [dLookup, hp] at h
      exact List.mem_cons_of_mem _ (ih h)

theorem mem_dSet (m : PyDict) (k : String) (v : PyVal) (p : String × PyVal)
    (h : p ∈ dSet m k v) : p = (k, v) ∨ p ∈ m := by
  induction m with
  | nil => simp [dSet] at h; simp [h]
  | cons q t ih =>
    by_cases hq : q.1 = k
    · simp [dSet, hq] at h
      rcases h with h | h
      · exact Or.inl h
      · exact Or.inr (List.mem_cons_of_mem _ h)
    · simp [dSet, hq] at h
      rcases h with h | h
      · exact Or.inr (by simp [h])
      · rcases ih h with h' | h'
        · exact Or.inl h'
        · exact Or.inr (List.mem_cons_of_mem _ h')

/-! ## Helper lemmas: Python strings -/

theorem dropWhile_eq_self_of_head {p : Char → Bool} {l : List Char}
    (h : ∀ c ∈ l, p c = false) : l.dropWhile p = l := by
  cases l with
  | nil => rfl
  | cons c t => simp [List.dropWhile, h c (by simp)]

theorem pyStripList_eq_self {l : List Char} (h : ∀ c ∈ l, isPySpace c = false) :
    pyStripList l = l := by
  unfold pyStripList
  rw [dropWhile_eq_self_of_head h,
      dropWhile_eq_self_of_head (fun c hc => h c (List.mem_reverse.mp hc)),
      List.reverse_reverse]

theorem mem_dropWhile_of_not {p : Char → Bool} {l : List Char} {c : Char}
    (hc : c ∈ l) (hp : p c = false) : c ∈ l.dropWhile p := by
  induction l with
  | nil => simp at hc
  | cons a t ih =>
    by_cases ha : p a = true
    · rcases List.mem_cons.mp hc with h | h
      · subst h; simp_all
      · simpa [List.dropWhile, ha] using ih h
    · simp only [List.dropWhile, Bool.not_eq_true] at ha ⊢
      simp [ha, hc]

theorem pyStripList_ne_nil {l : List Char} {c : Char} (hc : c ∈ l)
    (hp : isPySpace c = false) : pyStripList l ≠ [] := by
  unfold pyStripList
  intro h
  have h1 : c ∈ l.dropWhile isPySpace := mem_dropWhile_of_not hc hp
  have h2 : c ∈ (l.dropWhile isPySpace).reverse.dropWhile isPySpace :=
    mem_dropWhile_of_not (List.mem_reverse.mpr h1) hp
  rw [List.reverse_eq_nil_iff.mp h] at h2
  simp at h2

theorem char_digit_of_lt (d : Nat) (hd : d < 10) :
    (Char.ofNat (48 + d)).isDigit = true := by
  interval_cases d <;> decide

theorem natReprAux_digits (fuel : Nat) :
    ∀ n, ∀ c ∈ natReprAux fuel n, c.isDigit = true := by
  induction fuel with
  | zero => intro n c hc; simp [natReprAux] at hc
  | succ f ih =>
    intro n c hc
    by_cases hn : n = 0
    · simp [natReprAux, hn] at hc
    · simp only [natReprAux, hn, if_false] at hc
      rcases List.mem_append.mp hc with h | h
      · exact ih _ c h
      · rcases List.mem_singleton.mp h with rfl
        exact char_digit_of_lt _ (Nat.mod_lt _ (by norm_num))

/-- Every character of `natRepr n` is a decimal digit. -/
theorem natRepr_digits (n : Nat) : ∀ c ∈ (natRepr n).data, c.isDigit = true := by
  intro c hc
  unfold natRepr at hc
  by_cases h : n = 0
  · simp [h] at hc
    subst hc
    decide
  · rw [if_neg h] at hc
    exact natReprAux_digits n n c hc

theorem digit_not_space {c : Char} (h : c.isDigit = true) : isPySpace c = false := by
  simp [Char.isDigit] at h
  simp only [isPySpace, Bool.or_eq_false_iff]
  refine ⟨⟨⟨⟨⟨?_, ?_⟩, ?_⟩, ?_⟩, ?_⟩, ?_⟩ <;>
    (simp only [decide_eq_false_iff_not]; intro hq; subst hq; revert h; decide)

theorem natRepr_ne_nil (n : Nat) : (natRepr n).data ≠ [] := by
  unfold natRepr
  rcases n with _ | m
  · simp
  · rw [if_neg (by omega)]
    show natReprAux (m + 1) (m + 1) ≠ []
    simp only [natReprAux]
    rw [if_neg (by omega)]
    simp

/-- `str()` of a non-string scalar strips to a non-empty string. -/
theorem pyStrip_pyStr_ne_empty (v : PyVal) (hv : ∀ s, v ≠ .vstr s) :
    pyStrip (pyStr v) ≠ "" := by
  have key : ∀ (l : List Char) (c : Char), c ∈ l → isPySpace c = false →
      (⟨pyStripList l⟩ : String) ≠ "" := by
    intro l c hc hp h
    exact pyStripList_ne_nil hc hp (by simpa [String.ext_iff] using h)
  cases v with
  | vnone => decide
  | vbool b => cases b <;> decide
  | vint n =>
    by_cases hn : n < 0
    · simp only [pyStr, hn, if_pos]
      have hd : ('-' : Char) ∈ ("-" ++ natRepr n.natAbs).data := by
        simp [String.data_append]
      exact key _ '-' hd (by decide)
    · simp only [pyStr, hn, if_neg]
      obtain ⟨c, hc⟩ : ∃ c, c ∈ (natRepr n.natAbs).data := by
        cases h : (natRepr n.natAbs).data with
        | nil => exact absurd h (natRepr_ne_nil _)
        | cons a t => exact ⟨a, by simp [h]⟩
      exact key _ c hc (digit_not_space (natRepr_digits _ c hc))
  | vstr s => exact absurd rfl (hv s)

/-! ## Further helper lemmas for the processing queue -/

theorem process_file_snd (c : Collaborators) (fn : String) (db : DBState) :
    (process_file c fn db).2 = .ok () := by
  unfold process_file
  cases c.extract_text with
  | error e => rfl
  | ok t =>
    cases hv : c.process_vectors t with
    | error e => simp [hv]
    | ok u =>
      cases hm : c.extract_metadata t with
      | error e => simp [hv, hm]
      | ok u' => simp [hv, hm]

/-- `_process_file` swallows its exception, so the retry loop of
`_worker` always breaks after the first attempt. -/
theorem worker_single_attempt (c : Collaborators) (fn : String) (db : DBState) :
    worker_process_task c fn db = ((process_file c fn db).1, 1) := by
  have h : process_file c fn db = ((process_file c fn db).1, Except.ok ()) := by
    have := process_file_snd c fn db
    exact Prod.ext rfl this
  unfold worker_process_task retry_loop
  rw [h]

theorem commitW_failEffects (db : DBState) (fn e : String) :
    commitW db (failEffects fn e) =
      ⟨db.processing_attempts, "failed", "failed",
       some ("Error processing file " ++ fn ++ ": " ++ e),
       some ("Error processing file " ++ fn ++ ": " ++ e),
       db.errors ++ [⟨"processing", "Error processing file " ++ fn ++ ": " ++ e, e, false⟩],
       db.metadata_rows⟩ := by
  rfl

/-! ## Claim theorems -/

/-- C4 counterexample: a chunk/embedding pair whose text strips to
empty is filtered out, the post-filter set is empty, and
`store_vectors` returns success (`True`) instead of failing. -/
theorem c4_counterexample :
    store_vectors (fun _ => "") "f" [" "] [[1]] [] = Except.ok (true, []) := by
  rfl

/-- C4 (amended): `store_vectors` fails whenever the chunk count and
embedding count differ, but when the post-filter set is empty it
returns success with the store unchanged instead of failing. -/
theorem c4_store_vectors_amended (md5hex : String → String) (fid : String)
    (chunks : List String) (embs : List (List ℚ)) (store : List ChromaEntry) :
    (chunks.length ≠ embs.length →
      store_vectors md5hex fid chunks embs store =
        .error "Failed to store vectors: Number of chunks and embeddings don't match") ∧
    (chunks.length = embs.length →
      (chunks.zip embs).enum.filter (fun p => pyStrip p.2.1 ≠ "" && p.2.2 ≠ []) = [] →
      store_vectors md5hex fid chunks embs store = .ok (true, store)) := by
  constructor
  · intro h
    simp [store_vectors, h]
  · intro h hf
    simp only [store_vectors]
    rw [if_neg (by simp [h])]
    rw [if_pos hf]

/-- Witness for C4's amended theorem at concrete inputs. -/
theorem c4_store_vectors_amended_witness :
    store_vectors (fun _ => "") "f" ["a"] [] [] =
      .error "Failed to store vectors: Number of chunks and embeddings don't match" ∧
    store_vectors (fun _ => "") "f" ["x"] [[]] [] = .ok (true, []) :=
  ⟨(c4_store_vectors_amended (fun _ => "") "f" ["a"] [] []).1 (by decide),
   (c4_store_vectors_amended (fun _ => "") "f" ["x"] [[]] []).2 (by decide) (by rfl)⟩

/-- C7: an empty or whitespace-only input yields an empty chunk list
from `chunk_text`, and `process_text_to_vectors` raises instead of
succeeding vacuously; in general an empty chunk list is always a hard
failure of the run. -/
theorem c7_empty_input_hard_failure (encode : String → List Nat)
    (decode : List Nat → String) (md5hex : String → String)
    (gen : List String → Except String (List (List ℚ)))
    (fid text : String) (store : List ChromaEntry)
    (h : pyStrip text = "") :
    chunk_text encode decode settings_chunk_size settings_chunk_overlap text = [] ∧
    process_text_to_vectors encode decode md5hex gen fid text store =
      .error "No text content to process" ∧
    (∀ t, chunk_text encode decode settings_chunk_size settings_chunk_overlap t = [] →
      ∃ e, process_text_to_vectors encode decode md5hex gen fid t store = .error e) := by
  refine ⟨by simp [chunk_text, h], by simp [process_text_to_vectors, h], ?_⟩
  intro t ht
  by_cases hts : t = "" || pyStrip t = ""
  · exact ⟨"No text content to process", by simp [process_text_to_vectors, hts]⟩
  · exact ⟨"No valid text chunks generated", by simp [process_text_to_vectors, hts, ht]⟩

/-- Witness for C7 at a whitespace-only input. -/
theorem c7_empty_input_hard_failure_witness :
    chunk_text (fun _ => [1, 2, 3]) (fun _ => "x") settings_chunk_size
      settings_chunk_overlap "  " = [] ∧
    process_text_to_vectors (fun _ => [1, 2, 3]) (fun _ => "x") (fun _ => "")
      (fun _ => .ok [[1]]) "f" "  " [] = .error "No text content to process" ∧
    (∀ t, chunk_text (fun _ => [1, 2, 3]) (fun _ => "x") settings_chunk_size
        settings_chunk_overlap t = [] →
      ∃ e, process_text_to_vectors (fun _ => [1, 2, 3]) (fun _ => "x") (fun _ => "")
        (fun _ => .ok [[1]]) "f" t [] = .error e) :=
  c7_empty_input_hard_failure (fun _ => [1, 2, 3]) (fun _ => "x") (fun _ => "")
    (fun _ => .ok [[1]]) "f" "  " [] (by decide)

/-- C3 counterexample: running the pipeline's vector path twice on the
same document id and text does not leave an identical chunk-id set and
count — the second run appends a duplicate node under a fresh id. -/
theorem c3_counterexample :
    (nodesFor "d1" (friend_process_text_to_vectors (fun t => [t]) "d1" "hello"
      ⟨[], 0⟩)).length = 1 ∧
    (nodesFor "d1" (friend_process_text_to_vectors (fun t => [t]) "d1" "hello"
      (friend_process_text_to_vectors (fun t => [t]) "d1" "hello" ⟨[], 0⟩))).length = 2 ∧
    (friend_process_text_to_vectors (fun t => [t]) "d1" "hello" ⟨[], 0⟩).nodes.map
      LlamaNode.node_id = [0] ∧
    (friend_process_text_to_vectors (fun t => [t]) "d1" "hello"
      (friend_process_text_to_vectors (fun t => [t]) "d1" "hello" ⟨[], 0⟩)).nodes.map
      LlamaNode.node_id = [0, 1] := by
  refine ⟨rfl, rfl, rfl, rfl⟩

/-- C3 (amended): the vector path used by the pipeline inserts nodes
with freshly generated ids, so reprocessing a document appends rather
than overwrites: after two runs the document holds twice as many
chunks as after one. -/
theorem c3_friend_insert_duplicates (split : String → List String)
    (fid text : String) (st : LlamaIndexState) (h : nodesFor fid st = []) :
    (nodesFor fid (friend_process_text_to_vectors split fid text st)).length =
      (split text).length ∧
    (nodesFor fid (friend_process_text_to_vectors split fid text
      (friend_process_text_to_vectors split fid text st))).length =
      2 * (split text).length := by
  have key : ∀ s : LlamaIndexState,
      nodesFor fid (friend_process_text_to_vectors split fid text s) =
        nodesFor fid s ++
          (((split text).zip ((List.range (split text).length).map
            (fun j => s.nextId + j))).map
            (fun p => (⟨p.2, p.1, fid, "text_document_" ++ fid⟩ : LlamaNode))) := by
    intro s
    unfold friend_process_text_to_vectors llamaInsertNodes nodesFor
    simp only [List.filter_append]
    congr 1
    apply List.filter_eq_self.mpr
    intro n hn
    rcases List.mem_map.mp hn with ⟨p, _, rfl⟩
    simp
  have len : ∀ s : LlamaIndexState,
      ((((split text).zip ((List.range (split text).length).map
        (fun j => s.nextId + j))).map
        (fun p => (⟨p.2, p.1, fid, "text_document_" ++ fid⟩ : LlamaNode)))).length =
        (split text).length := by
    intro s
    simp [List.length_zip]
  constructor
  · rw [key, h]
    simp [len]
  · rw [key, key, h]
    simp only [List.nil_append, List.length_append, len]
    omega

/-- Witness for C3's amended theorem at a concrete empty index. -/
theorem c3_friend_insert_duplicates_witness :
    (nodesFor "d2" (friend_process_text_to_vectors (fun t => [t, t]) "d2" "hi"
      ⟨[], 0⟩)).length = (([("hi" : String), "hi"]).length) ∧
    (nodesFor "d2" (friend_process_text_to_vectors (fun t => [t, t]) "d2" "hi"
      (friend_process_text_to_vectors (fun t => [t, t]) "d2" "hi" ⟨[], 0⟩))).length =
      2 * (([("hi" : String), "hi"]).length) :=
  c3_friend_insert_duplicates (fun t => [t, t]) "d2" "hi" ⟨[], 0⟩ (by rfl)

/-- C5 counterexample: extraction and the vector stage succeed, only
the metadata half fails, yet the final state records
`vector_processing_status = "failed"` — the in-transaction "completed"
write is rolled back and overwritten, so partial success is not
preserved. -/
theorem c5_counterexample :
    (process_file ⟨.ok "text", fun _ => .ok (), fun _ => .error "metadata LLM failed"⟩
      "contract.pdf" initialDB).1.vector_status = "failed" ∧
    ¬ (process_file ⟨.ok "text", fun _ => .ok (), fun _ => .error "metadata LLM failed"⟩
      "contract.pdf" initialDB).1.vector_status = "completed" := by
  exact ⟨rfl, by decide⟩

/-- C5 (amended): whenever any stage of an attempt fails — including a
failure confined to the metadata half — the attempt's uncommitted
writes are rolled back and BOTH stage tracks are marked `failed`, one
new error record is committed, and the attempt counter is unchanged;
the worker performs exactly one attempt. -/
theorem c5_failure_marks_both_failed (c : Collaborators) (fn : String) (db : DBState)
    (h : attemptFails c) :
    ∃ e,
      process_file c fn db = (commitW db (failEffects fn e), .ok ()) ∧
      (process_file c fn db).1.vector_status = "failed" ∧
      (process_file c fn db).1.metadata_status = "failed" ∧
      (process_file c fn db).1.errors.length = db.errors.length + 1 ∧
      (process_file c fn db).1.processing_attempts = db.processing_attempts ∧
      worker_process_task c fn db = ((process_file c fn db).1, 1) := by
  have post : ∀ e : String, process_file c fn db = (commitW db (failEffects fn e), .ok ()) →
      (process_file c fn db).1.vector_status = "failed" ∧
      (process_file c fn db).1.metadata_status = "failed" ∧
      (process_file c fn db).1.errors.length = db.errors.length + 1 ∧
      (process_file c fn db).1.processing_attempts = db.processing_attempts := by
    intro e he
    rw [he, commitW_failEffects]
    exact ⟨rfl, rfl, by simp, rfl⟩
  rcases h with ⟨e, he⟩ | ⟨t, ht, ⟨e, he⟩ | ⟨⟨u, hu⟩, e, he⟩⟩
  · have hp : process_file c fn db = (commitW db (failEffects fn e), .ok ()) := by
      simp [process_file, he]
    exact ⟨e, hp, (post e hp).1, (post e hp).2.1, (post e hp).2.2.1, (post e hp).2.2.2,
      worker_single_attempt c fn db⟩
  · have hp : process_file c fn db = (commitW db (failEffects fn e), .ok ()) := by
      simp [process_file, ht, he]
    exact ⟨e, hp, (post e hp).1, (post e hp).2.1, (post e hp).2.2.1, (post e hp).2.2.2,
      worker_single_attempt c fn db⟩
  · have hp : process_file c fn db = (commitW db (failEffects fn e), .ok ()) := by
      simp [process_file, ht, hu, he]
    exact ⟨e, hp, (post e hp).1, (post e hp).2.1, (post e hp).2.2.1, (post e hp).2.2.2,
      worker_single_attempt c fn db⟩

/-- Witness for C5's amended theorem: a metadata-only failure. -/
theorem c5_failure_marks_both_failed_witness :
    ∃ e,
      process_file ⟨.ok "t", fun _ => .ok (), fun _ => .error "llm down"⟩ "f.pdf" initialDB =
        (commitW initialDB (failEffects "f.pdf" e), .ok ()) ∧
      (process_file ⟨.ok "t", fun _ => .ok (), fun _ => .error "llm down"⟩ "f.pdf"
        initialDB).1.vector_status = "failed" ∧
      (process_file ⟨.ok "t", fun _ => .ok (), fun _ => .error "llm down"⟩ "f.pdf"
        initialDB).1.metadata_status = "failed" ∧
      (process_file ⟨.ok "t", fun _ => .ok (), fun _ => .error "llm down"⟩ "f.pdf"
        initialDB).1.errors.length = initialDB.errors.length + 1 ∧
      (process_file ⟨.ok "t", fun _ => .ok (), fun _ => .error "llm down"⟩ "f.pdf"
        initialDB).1.processing_attempts = initialDB.processing_attempts ∧
      worker_process_task ⟨.ok "t", fun _ => .ok (), fun _ => .error "llm down"⟩ "f.pdf"
        initialDB =
        ((process_file ⟨.ok "t", fun _ => .ok (), fun _ => .error "llm down"⟩ "f.pdf"
          initialDB).1, 1) :=
  c5_failure_marks_both_failed ⟨.ok "t", fun _ => .ok (), fun _ => .error "llm down"⟩
    "f.pdf" initialDB (Or.inr ⟨"t", rfl, Or.inr ⟨⟨(), rfl⟩, "llm down", rfl⟩⟩)

/-- C1: with an embedding collaborator that fails on every call, the
worker performs exactly ONE attempt (the exception is swallowed inside
`_process_file`, so the retry loop's `break` runs), the rolled-back
increment leaves `processing_attempts = 0`, and exactly one
ProcessingError record is committed — not 3 attempts / 3 records. -/
theorem c1_embedding_failure_single_attempt_state :
    worker_process_task
      ⟨.ok "extracted text", fun _ => .error "Embedding failed", fun _ => .ok ()⟩
      "contract.pdf" initialDB =
      (⟨0, "failed", "failed",
        some "Error processing file contract.pdf: Embedding failed",
        some "Error processing file contract.pdf: Embedding failed",
        [⟨"processing", "Error processing file contract.pdf: Embedding failed",
          "Embedding failed", false⟩], 0⟩, 1) := by
  rfl

/-- C2 counterexample: `stop()` is called while a job is in flight
(`running 2`), the pending cancellation is delivered at the job's next
await point, and the worker is `finished` without the job having
completed (`completedJobs` unchanged, two awaits still outstanding) —
the in-flight job did NOT run to natural completion. -/
theorem c2_counterexample :
    PStep ⟨true, false, .running 2, 0, 5⟩ ⟨false, true, .running 2, 0, 5⟩ ∧
    PStep ⟨false, true, .running 2, 0, 5⟩ ⟨false, true, .finished, 0, 5⟩ ∧
    (⟨false, true, .finished, 0, 5⟩ : PoolState).completedJobs =
      (⟨true, false, .running 2, 0, 5⟩ : PoolState).completedJobs := by
  refine ⟨PStep.stopCall _, PStep.cancelDeliver _ rfl (by decide), rfl⟩

/-- C2 (amended): mid-job the `is_running` flag alone never ends the
worker — from `running (k+1)` a step either leaves the job where it is
(a concurrent `stop()` call), advances it one await, or is the
delivered cancellation, which requires `cancelRequested` and abandons
the job (`completedJobs` unchanged).  The flag is only consulted at
iteration boundaries, but cancellation can interrupt an in-flight job. -/
theorem c2_stop_cancels_in_flight (s s' : PoolState) (k : Nat)
    (hs : s.phase = .running (k + 1)) (h : PStep s s') :
    (s'.phase = .running (k + 1) ∧ s'.is_running = false ∧ s'.cancelRequested = true) ∨
    (s'.phase = .running k ∧ s'.completedJobs = s.completedJobs) ∨
    (s.cancelRequested = true ∧ s'.phase = .finished ∧
      s'.completedJobs = s.completedJobs) := by
  cases h with
  | timeout h1 h2 h3 => rw [hs] at h2; cases h2
  | boundaryStop h1 h2 => rw [hs] at h2; cases h2
  | startJob k' h1 h2 h3 => rw [hs] at h2; cases h2
  | jobStep k' h1 =>
    rw [hs] at h1
    cases h1
    exact Or.inr (Or.inl ⟨rfl, rfl⟩)
  | jobDone h1 => rw [hs] at h1; cases h1
  | stopCall => exact Or.inl ⟨hs, rfl, rfl⟩
  | cancelDeliver h1 h2 => exact Or.inr (Or.inr ⟨h1, rfl, rfl⟩)

/-- Witness for C2's amended theorem at a concrete mid-job step. -/
theorem c2_stop_cancels_in_flight_witness :
    ((⟨true, false, .running 0, 0, 0⟩ : PoolState).phase = .running (0 + 1) ∧
      (⟨true, false, .running 0, 0, 0⟩ : PoolState).is_running = false ∧
      (⟨true, false, .running 0, 0, 0⟩ : PoolState).cancelRequested = true) ∨
    ((⟨true, false, .running 0, 0, 0⟩ : PoolState).phase = .running 0 ∧
      (⟨true, false, .running 0, 0, 0⟩ : PoolState).completedJobs =
        (⟨true, false, .running (0 + 1), 0, 0⟩ : PoolState).completedJobs) ∨
    ((⟨true, false, .running (0 + 1), 0, 0⟩ : PoolState).cancelRequested = true ∧
      (⟨true, false, .running 0, 0, 0⟩ : PoolState).phase = .finished ∧
      (⟨true, false, .running 0, 0, 0⟩ : PoolState).completedJobs =
        (⟨true, false, .running (0 + 1), 0, 0⟩ : PoolState).completedJobs) :=
  c2_stop_cancels_in_flight ⟨true, false, .running (0 + 1), 0, 0⟩
    ⟨true, false, .running 0, 0, 0⟩ 0 rfl (PStep.jobStep _ 0 rfl)

/-! ## Helper lemmas for chunk windows -/

/-- Number of windows the loop emits for `n` tokens (`n > 0`). -/
def numWindows (n size step : Nat) : Nat :=
  if n ≤ size then 1 else (n - size + step - 1) / step + 1

theorem numWindows_rec (m size step : Nat) (hstep : 0 < step) (hm : size < m) :
    numWindows m size step = numWindows (m - step) size step + 1 := by
  unfold numWindows
  rw [if_neg (by omega)]
  by_cases h : m - step ≤ size
  · rw [if_pos h]
    have h1 : m - size + step - 1 = (m - size - 1) + step := by omega
    have h2 : m - size - 1 < step := by omega
    rw [h1, Nat.add_div_right _ hstep, Nat.div_eq_of_lt h2]
  · rw [if_neg h]
    have h1 : m - size + step - 1 = (m - size - 1) + step := by omega
    have h2 : m - step - size + step - 1 = m - size - 1 := by omega
    rw [h1, h2, Nat.add_div_right _ hstep]

theorem chunkWindows_characterization (tokens : List Nat) (size step : Nat)
    (hstep : 0 < step) (hss : step ≤ size) :
    ∀ i, i < tokens.length →
      chunkWindows tokens size step i =
        (List.range (numWindows (tokens.length - i) size step)).map
          (fun j => (tokens.drop (i + j * step)).take size) := by
  have main : ∀ m : Nat, ∀ i, i < tokens.length → tokens.length - i = m →
      chunkWindows tokens size step i =
        (List.range (numWindows (tokens.length - i) size step)).map
          (fun j => (tokens.drop (i + j * step)).take size) := by
    intro m
    induction m using Nat.strong_induction_on with
    | _ m ih =>
      intro i hi hm
      rw [chunkWindows]
      rw [dif_pos ⟨hi, hstep⟩]
      by_cases hend : tokens.length ≤ i + size
      · rw [if_pos hend]
        have h1 : numWindows (tokens.length - i) size step = 1 := by
          unfold numWindows
          rw [if_pos (by omega)]
        rw [h1]
        have hr : List.range 1 = [0] := rfl
        rw [hr, List.map_cons, List.map_nil]
        simp
      · rw [if_neg hend]
        have hlt : i + size < tokens.length := by omega
        have hi' : i + step < tokens.length := by omega
        have hrec := ih (m - step) (by omega) (i + step) hi' (by omega)
        rw [hrec]
        have hnw : numWindows (tokens.length - i) size step =
            numWindows (tokens.length - (i + step)) size step + 1 := by
          have := numWindows_rec (tokens.length - i) size step hstep (by omega)
          rw [this]
          congr 2
          omega
        rw [hnw, List.range_succ_eq_map, List.map_cons, List.map_map]
        congr 1
        · simp
        · apply List.map_congr_left
          intro j _
          simp only [Function.comp]
          have h5 : Nat.succ j * step = j * step + step := Nat.succ_mul j step
          congr 2
          omega
  intro i hi
  exact main (tokens.length - i) i hi rfl

/-- C6: the chunker emits sliding windows of `size` advancing by
`step = size − overlap` with a final partial window (general
characterization), and on a 3000-token input with size 1024 and
overlap 200 it yields exactly 4 chunks, the last of 528 < 1024
tokens. -/
theorem c6_sliding_windows (encode : String → List Nat) (decode : List Nat → String)
    (text : String)
    (h3000 : (encode text).length = 3000)
    (htext : pyStrip text ≠ "")
    (hne : ∀ w ∈ chunkWindows (encode text) 1024 824 0, pyStrip (decode w) ≠ "") :
    (∀ (tokens : List Nat) (size step : Nat), 0 < step → step ≤ size →
      ∀ i, i < tokens.length →
      chunkWindows tokens size step i =
        (List.range (numWindows (tokens.length - i) size step)).map
          (fun j => (tokens.drop (i + j * step)).take size)) ∧
    chunk_text encode decode 1024 200 text =
      (List.range 4).map
        (fun j => pyStrip (decode (((encode text).drop (j * 824)).take 1024))) ∧
    (chunk_text encode decode 1024 200 text).length = 4 ∧
    (((encode text).drop (3 * 824)).take 1024).length = 528 ∧ 528 < 1024 := by
  have gen := fun tokens size step h1 h2 =>
    chunkWindows_characterization tokens size step h1 h2
  have htext0 : ¬(text = "" || pyStrip text = "") = true := by
    simp only [Bool.or_eq_true, decide_eq_true_eq]
    rintro (rfl | h)
    · exact htext rfl
    · exact htext h
  have htok : ¬(encode text = []) := by
    intro h
    rw [h] at h3000
    simp at h3000
  have hwin : chunkWindows (encode text) 1024 824 0 =
      (List.range 4).map (fun j => ((encode text).drop (j * 824)).take 1024) := by
    have := chunkWindows_characterization (encode text) 1024 824 (by norm_num)
      (by norm_num) 0 (by omega)
    rw [this]
    have h4 : numWindows ((encode text).length - 0) 1024 824 = 4 := by
      rw [h3000]
      decide
    rw [h4]
    apply List.map_congr_left
    intro j _
    simp
  have hmain : chunk_text encode decode 1024 200 text =
      (List.range 4).map
        (fun j => pyStrip (decode (((encode text).drop (j * 824)).take 1024))) := by
    unfold chunk_text
    rw [if_neg htext0, if_neg htok]
    show List.filter (fun s => decide (s ≠ ""))
        (List.map (fun w => pyStrip (decode w))
          (chunkWindows (encode text) 1024 (1024 - 200) 0)) = _
    have hstep : (1024 : Nat) - 200 = 824 := by norm_num
    rw [hstep, hwin]
    have hall : ∀ s ∈ List.map (fun w => pyStrip (decode w))
        (List.map (fun j => ((encode text).drop (j * 824)).take 1024) (List.range 4)),
        (decide (s ≠ "")) = true := by
      intro s hs
      rcases List.mem_map.mp hs with ⟨w, hw, rfl⟩
      rcases List.mem_map.mp hw with ⟨j, hj, rfl⟩
      simp only [decide_eq_true_eq]
      apply hne
      rw [hwin]
      exact List.mem_map.mpr ⟨j, hj, rfl⟩
    rw [List.filter_eq_self.mpr hall, List.map_map]
    rfl
  refine ⟨gen, hmain, ?_, ?_, by norm_num⟩
  · rw [hmain]
    simp
  · rw [List.length_take, List.length_drop, h3000]
    decide

/-- Witness for C6 with an explicit 3000-token input. -/
theorem c6_sliding_windows_witness :
    (chunk_text (fun _ => List.replicate 3000 0) (fun _ => "a") 1024 200 "x").length = 4 :=
  (c6_sliding_windows (fun _ => List.replicate 3000 0) (fun _ => "a") "x"
    (by show (List.replicate 3000 (0 : Nat)).length = 3000; rw [List.length_replicate])
    (by decide)
    (by intro w hw; show pyStrip "a" ≠ ""; decide)).2.2.1

/-! ## Helper lemmas for the metadata pipeline -/

/-- A value surviving the clean-up: a string that strips non-empty. -/
def cleanVal (v : PyVal) : Prop := ∃ s, v = .vstr s ∧ pyStrip s ≠ ""

theorem cleanupVal_cleanVal (v : PyVal) : cleanVal (cleanupVal v) := by
  cases v with
  | vnone => exact ⟨"NA", rfl, by decide⟩
  | vstr s =>
    by_cases h : pyStrip s = ""
    · exact ⟨"NA", by simp [cleanupVal, h], by decide⟩
    · exact ⟨s, by simp [cleanupVal, h], h⟩
  | vint n =>
    exact ⟨pyStr (.vint n), rfl, pyStrip_pyStr_ne_empty _ (by intro s h; cases h)⟩
  | vbool b =>
    exact ⟨pyStr (.vbool b), rfl, pyStrip_pyStr_ne_empty _ (by intro s h; cases h)⟩

theorem dLookup_cleanup (m : PyDict) (k : String) :
    dLookup (cleanup m) k = (dLookup m k).map cleanupVal := by
  induction m with
  | nil => rfl
  | cons p t ih =>
    by_cases h : p.1 = k
    · simp [cleanup, dLookup, h]
    · simpa [cleanup, dLookup, h] using ih

theorem cleanup_inv (m : PyDict) : ∀ p ∈ cleanup m, cleanVal p.2 := by
  intro p hp
  rcases List.mem_map.mp hp with ⟨q, _, rfl⟩
  exact cleanupVal_cleanVal q.2

theorem dSet_inv (m : PyDict) (k : String) (v : PyVal)
    (hm : ∀ p ∈ m, cleanVal p.2) (hv : cleanVal v) :
    ∀ p ∈ dSet m k v, cleanVal p.2 := by
  intro p hp
  rcases mem_dSet m k v p hp with h | h
  · rw [h]; exact hv
  · exact hm p h

theorem dGet_of_contains (m : PyDict) (k : String) (d : PyVal)
    (h : dContains m k = true) : ∃ v, dLookup m k = some v ∧ dGet m k d = v := by
  unfold dContains at h
  cases hl : dLookup m k with
  | none => rw [hl] at h; simp at h
  | some v => exact ⟨v, rfl, by simp [dGet, hl]⟩

theorem legacyValue_inv (m : PyDict) (hm : ∀ p ∈ m, cleanVal p.2) :
    ∀ p ∈ legacyValue m, cleanVal p.2 := by
  unfold legacyValue
  by_cases hc : dContains m "contract_value_local" = true ∧
      ¬ dLookup m "contract_value_local" = some (.vstr "NA")
  · rw [if_pos (by simp [hc.1, hc.2])]
    obtain ⟨v, hv, hg⟩ := dGet_of_contains m "contract_value_local" .vnone hc.1
    rw [hg]
    exact dSet_inv m _ _ hm (hm _ (mem_of_dLookup m _ v hv))
  · rw [if_neg (by intro h; simp at h; exact hc ⟨h.1, h.2⟩)]
    exact dSet_inv m _ _ hm ⟨"NA", rfl, by decide⟩

theorem pyStrip_contract_with (x : String) :
    pyStrip ("Contract with " ++ x) ≠ "" := by
  intro h
  have hc : ('C' : Char) ∈ ("Contract with " ++ x).data := by
    rw [String.data_append]
    exact List.mem_append_left _ (by decide)
  exact pyStripList_ne_nil hc (by decide) (by simpa [pyStrip, String.ext_iff] using h)

theorem nameFallback_inv (m : PyDict) (hm : ∀ p ∈ m, cleanVal p.2) :
    ∀ p ∈ nameFallback m, cleanVal p.2 := by
  unfold nameFallback
  by_cases h1 : dGet m "contract_name" (.vstr "NA") = .vstr "NA"
  · rw [if_pos h1]
    by_cases h2 : dGet m "vendor_name" (.vstr "NA") = .vstr "NA"
    · rw [if_neg (by simp [h2])]
      exact dSet_inv m _ _ hm ⟨"NA", rfl, by decide⟩
    · rw [if_pos (by simp [h2])]
      exact dSet_inv m _ _ hm
        ⟨"Contract with " ++ pyStr (dGet m "vendor_name" (.vstr "NA")), rfl,
         pyStrip_contract_with _⟩
  · rw [if_neg h1]
    exact hm

theorem dContains_cleanup (m : PyDict) (k : String) (h : dContains m k = true) :
    dContains (cleanup m) k = true := by
  unfold dContains at h ⊢
  rw [dLookup_cleanup]
  cases hl : dLookup m k with
  | none => rw [hl] at h; simp at h
  | some v => simp

/-- The per-field step of `fillRequired`. -/
theorem fillRequired_foldl_contains_preserve (fs : List String) (m : PyDict)
    (k : String) (h : dContains m k = true) :
    dContains (fs.foldl (fun m f =>
      if dLookup m f = none || dLookup m f = some .vnone then dSet m f (.vstr "NA")
      else m) m) k = true := by
  induction fs generalizing m with
  | nil => exact h
  | cons f fs ih =>
    simp only [List.foldl_cons]
    apply ih
    split
    · exact dContains_dSet m f k _ h
    · exact h

theorem fillRequired_contains (m : PyDict) (f : String) (hf : f ∈ required_fields) :
    dContains (fillRequired m) f = true := by
  unfold fillRequired
  have main : ∀ fs : List String, ∀ m : PyDict, f ∈ fs →
      dContains (fs.foldl (fun m f =>
        if dLookup m f = none || dLookup m f = some .vnone then dSet m f (.vstr "NA")
        else m) m) f = true := by
    intro fs
    induction fs with
    | nil => intro m h; simp at h
    | cons g gs ih =>
      intro m hmem
      rcases List.mem_cons.mp hmem with h | h
      · subst h
        simp only [List.foldl_cons]
        apply fillRequired_foldl_contains_preserve
        split
        · exact dContains_dSet_same m f _
        · next hc =>
          unfold dContains
          rcases hl : dLookup m f with _ | v
          · rw [hl] at hc; simp at hc
          · simp
      · simp only [List.foldl_cons]
        exact ih _ h
  exact main required_fields m hf

theorem fillRequired_lookup_preserve (m : PyDict) (k : String) (v : PyVal)
    (hv : v ≠ .vnone) (h : dLookup m k = some v) :
    dLookup (fillRequired m) k = some v := by
  unfold fillRequired
  have main : ∀ fs : List String, ∀ m : PyDict, dLookup m k = some v →
      dLookup (fs.foldl (fun m f =>
        if dLookup m f = none || dLookup m f = some .vnone then dSet m f (.vstr "NA")
        else m) m) k = some v := by
    intro fs
    induction fs with
    | nil => intro m h; exact h
    | cons g gs ih =>
      intro m h
      simp only [List.foldl_cons]
      apply ih
      split
      · next hc =>
        by_cases hg : g = k
        · subst hg
          rw [h] at hc
          simp at hc
          exact absurd hc hv
        · rw [dLookup_dSet_ne m g k _ (Ne.symm hg)]
          exact h
      · exact h
  exact main required_fields m h

theorem normalizeDates_lookup (m : PyDict) (k : String)
    (h1 : k ≠ "start_date") (h2 : k ≠ "end_date") :
    dLookup (normalizeDates m) k = dLookup m k := by
  unfold normalizeDates
  rw [dLookup_dSet_ne _ _ _ _ h2, dLookup_dSet_ne _ _ _ _ h1]

theorem fillUsd_cases (fr : String → Option ℚ) (m d : PyDict)
    (h : fillUsd fr m = .ok d) :
    d = m ∨ ∃ usd, d = dSet m "contract_value_usd" (.vstr usd) := by
  unfold fillUsd at h
  by_cases hc : dLookup m "contract_value_usd" = none ||
      dLookup m "contract_value_usd" = some (.vstr "NA") ||
      dLookup m "contract_value_usd" = some (.vstr "") ||
      dLookup m "contract_value_usd" = some .vnone
  · rw [if_pos hc] at h
    cases hcv : convert_currency_to_usd fr (dGet m "contract_value_local" (.vstr "NA"))
        (dGet m "currency" (.vstr "NA")) with
    | error e => rw [hcv] at h; cases h
    | ok usd =>
      rw [hcv] at h
      simp only [Except.map] at h
      cases h
      exact Or.inr ⟨usd, rfl⟩
  · rw [if_neg hc] at h
    cases h
    exact Or.inl rfl

theorem fillUsd_lookup (fr : String → Option ℚ) (m d : PyDict) (k : String)
    (hk : k ≠ "contract_value_usd") (h : fillUsd fr m = .ok d) :
    dLookup d k = dLookup m k := by
  rcases fillUsd_cases fr m d h with rfl | ⟨usd, rfl⟩
  · rfl
  · exact dLookup_dSet_ne _ _ _ _ hk

theorem fillUsd_contains (fr : String → Option ℚ) (m d : PyDict) (k : String)
    (hc : dContains m k = true) (h : fillUsd fr m = .ok d) :
    dContains d k = true := by
  rcases fillUsd_cases fr m d h with rfl | ⟨usd, rfl⟩
  · exact hc
  · exact dContains_dSet _ _ _ _ hc

theorem validTypeScope_lookup (m : PyDict) (k : String)
    (h1 : k ≠ "contract_type") (h2 : k ≠ "scope_of_services") :
    dLookup (validTypeScope m) k = dLookup m k := by
  unfold validTypeScope
  by_cases hc1 : pyValInStrings (dLookup m "contract_type") valid_contract_types = true
  · rw [if_pos hc1]
    by_cases hc2 : pyValInStrings (dLookup m "scope_of_services") valid_scope_types = true
    · rw [if_pos hc2]
    · rw [if_neg hc2]
      exact dLookup_dSet_ne _ _ _ _ h2
  · rw [if_neg hc1]
    by_cases hc2 : pyValInStrings (dLookup (dSet m "contract_type" (.vstr "Other"))
        "scope_of_services") valid_scope_types = true
    · rw [if_pos hc2]
      exact dLookup_dSet_ne _ _ _ _ h1
    · rw [if_neg hc2]
      rw [dLookup_dSet_ne _ _ _ _ h2, dLookup_dSet_ne _ _ _ _ h1]

theorem validTypeScope_inv_structure (m : PyDict) :
    validTypeScope m = m ∨
    (∃ m', (m' = m ∨ m' = dSet m "contract_type" (.vstr "Other")) ∧
      (validTypeScope m = m' ∨
       validTypeScope m = dSet m' "scope_of_services" (.vstr "Other"))) := by
  unfold validTypeScope
  by_cases hc1 : pyValInStrings (dLookup m "contract_type") valid_contract_types = true
  · rw [if_pos hc1]
    by_cases hc2 : pyValInStrings (dLookup m "scope_of_services") valid_scope_types = true
    · rw [if_pos hc2]
      exact Or.inl rfl
    · rw [if_neg hc2]
      exact Or.inr ⟨m, Or.inl rfl, Or.inr rfl⟩
  · rw [if_neg hc1]
    by_cases hc2 : pyValInStrings (dLookup (dSet m "contract_type" (.vstr "Other"))
        "scope_of_services") valid_scope_types = true
    · rw [if_pos hc2]
      exact Or.inr ⟨dSet m "contract_type" (.vstr "Other"), Or.inr rfl, Or.inl rfl⟩
    · rw [if_neg hc2]
      exact Or.inr ⟨dSet m "contract_type" (.vstr "Other"), Or.inr rfl, Or.inr rfl⟩

theorem legacyValue_lookup (m : PyDict) (k : String) (hk : k ≠ "contract_value") :
    dLookup (legacyValue m) k = dLookup m k := by
  unfold legacyValue
  by_cases hc : (dContains m "contract_value_local" &&
      !(dLookup m "contract_value_local" = some (.vstr "NA"))) = true
  · rw [if_pos hc]
    exact dLookup_dSet_ne _ _ _ _ hk
  · rw [if_neg hc]
    exact dLookup_dSet_ne _ _ _ _ hk

theorem nameFallback_lookup (m : PyDict) (k : String) (hk : k ≠ "contract_name") :
    dLookup (nameFallback m) k = dLookup m k := by
  unfold nameFallback
  by_cases h1 : dGet m "contract_name" (.vstr "NA") = .vstr "NA"
  · rw [if_pos h1]
    by_cases h2 : (!(dGet m "vendor_name" (.vstr "NA") = .vstr "NA")) = true
    · rw [if_pos h2]
      exact dLookup_dSet_ne _ _ _ _ hk
    · rw [if_neg h2]
      exact dLookup_dSet_ne _ _ _ _ hk
  · rw [if_neg h1]

/-- Unfolding `validate_and_clean_metadata` on a successful run. -/
theorem validate_ok_decomp (now : Int) (fr : String → Option ℚ) (m0 out : PyDict)
    (h : validate_and_clean_metadata now fr m0 = .ok out) :
    ∃ d st tag, afterUsd fr m0 = .ok d ∧
      calc_contract_status_and_tag now (getStr d "start_date") (getStr d "end_date") d =
        .ok (st, tag) ∧
      out = nameFallback (legacyValue (cleanup (validTypeScope
        (dSet (dSet d "contract_status" (.vstr st)) "contract_tag" (.vstr tag))))) := by
  unfold validate_and_clean_metadata at h
  cases ha : afterUsd fr m0 with
  | error e =>
    rw [ha] at h
    cases h
  | ok d =>
    rw [ha] at h
    simp only [Bind.bind, Except.bind] at h
    cases hc : calc_contract_status_and_tag now (getStr d "start_date")
        (getStr d "end_date") d with
    | error e =>
      rw [hc] at h
      cases h
    | ok p =>
      rw [hc] at h
      simp only [pure, Except.pure] at h
      cases h
      exact ⟨d, p.1, p.2, rfl, by rw [hc], rfl⟩

/-- The status calculated by `_calculate_contract_status_and_tag` is
one of the three literals, the tag one of the four. -/
theorem calc_status_tag_mem (now : Int) (sd ed : String) (m : PyDict)
    (st tag : String)
    (h : calc_contract_status_and_tag now sd ed m = .ok (st, tag)) :
    st ∈ ["Draft", "Active", "Expired"] ∧
    tag ∈ ["NA", "Expiry < 30 days", "Expiry 30 to 90 days", "Expiry > 90 days"] := by
  unfold calc_contract_status_and_tag at h
  split at h
  · simp only [] at h
    split at h
    · cases h
      exact ⟨by decide, by decide⟩
    · split at h
      · cases h
        exact ⟨by decide, by decide⟩
      · cases h
        exact ⟨by decide, by decide⟩
      · cases h
        constructor <;> (repeat' first | decide | split)
  · cases h

/-- Looking up the derived status and tag in the final dict. -/
theorem tail_status_tag_lookup (d : PyDict) (st tag : String)
    (hst : pyStrip st ≠ "") (htag : pyStrip tag ≠ "") :
    dLookup (nameFallback (legacyValue (cleanup (validTypeScope
      (dSet (dSet d "contract_status" (.vstr st)) "contract_tag" (.vstr tag))))))
      "contract_status" = some (.vstr st) ∧
    dLookup (nameFallback (legacyValue (cleanup (validTypeScope
      (dSet (dSet d "contract_status" (.vstr st)) "contract_tag" (.vstr tag))))))
      "contract_tag" = some (.vstr tag) := by
  have m2 := dSet (dSet d "contract_status" (.vstr st)) "contract_tag" (.vstr tag)
  have h1 : dLookup (dSet (dSet d "contract_status" (.vstr st)) "contract_tag"
      (.vstr tag)) "contract_status" = some (.vstr st) := by
    rw [dLookup_dSet_ne _ _ _ _ (by decide), dLookup_dSet_same]
  have h2 : dLookup (dSet (dSet d "contract_status" (.vstr st)) "contract_tag"
      (.vstr tag)) "contract_tag" = some (.vstr tag) := dLookup_dSet_same _ _ _
  constructor
  · rw [nameFallback_lookup _ _ (by decide), legacyValue_lookup _ _ (by decide),
        dLookup_cleanup, validTypeScope_lookup _ _ (by decide) (by decide), h1]
    simp [cleanupVal, hst]
  · rw [nameFallback_lookup _ _ (by decide), legacyValue_lookup _ _ (by decide),
        dLookup_cleanup, validTypeScope_lookup _ _ (by decide) (by decide), h2]
    simp [cleanupVal, htag]

theorem validTypeScope_contains (m : PyDict) (k : String) (h : dContains m k = true) :
    dContains (validTypeScope m) k = true := by
  rcases validTypeScope_inv_structure m with h0 | ⟨m', hm', h0⟩
  · rw [h0]; exact h
  · have hm1 : dContains m' k = true := by
      rcases hm' with rfl | rfl
      · exact h
      · exact dContains_dSet _ _ _ _ h
    rcases h0 with h0 | h0
    · rw [h0]; exact hm1
    · rw [h0]; exact dContains_dSet _ _ _ _ hm1

theorem legacyValue_contains (m : PyDict) (k : String) (h : dContains m k = true) :
    dContains (legacyValue m) k = true := by
  unfold legacyValue
  split
  · exact dContains_dSet _ _ _ _ h
  · exact dContains_dSet _ _ _ _ h

theorem nameFallback_contains (m : PyDict) (k : String) (h : dContains m k = true) :
    dContains (nameFallback m) k = true := by
  unfold nameFallback
  by_cases h1 : dGet m "contract_name" (.vstr "NA") = .vstr "NA"
  · rw [if_pos h1]
    by_cases h2 : dGet m "vendor_name" (.vstr "NA") = .vstr "NA"
    · rw [if_neg (by simp [h2])]
      exact dContains_dSet _ _ _ _ h
    · rw [if_pos (by simp [h2])]
      exact dContains_dSet _ _ _ _ h
  · rw [if_neg h1]
    exact h

theorem validTypeScope_inv (m : PyDict) (hm : ∀ p ∈ m, cleanVal p.2) :
    ∀ p ∈ validTypeScope m, cleanVal p.2 := by
  rcases validTypeScope_inv_structure m with h0 | ⟨m', hm', h0⟩
  · rw [h0]; exact hm
  · have hm1 : ∀ p ∈ m', cleanVal p.2 := by
      rcases hm' with rfl | rfl
      · exact hm
      · exact dSet_inv _ _ _ hm ⟨"Other", rfl, by decide⟩
    rcases h0 with h0 | h0
    · rw [h0]; exact hm1
    · rw [h0]; exact dSet_inv _ _ _ hm1 ⟨"Other", rfl, by decide⟩

/-- A vendor field equal to the sentinel short-circuits the status
derivation (metadata_extraction.py 193-195). -/
theorem calc_vendor_na (now : Int) (sd ed : String) (m : PyDict)
    (hv : dGet m "vendor_name" (.vstr "NA") = .vstr "NA") :
    calc_contract_status_and_tag now sd ed m = .ok ("Draft", "NA") := by
  unfold calc_contract_status_and_tag
  rw [hv]
  rfl

/-- C9: whenever the extracted vendor name equals the absent-value
sentinel "NA", the normalized metadata carries contract_status "Draft"
and contract_tag "NA", whatever the supplied dates were. -/
theorem c9_vendor_sentinel_draft (now : Int) (fetchRate : String → Option ℚ)
    (m0 out : PyDict)
    (hv : dLookup m0 "vendor_name" = some (.vstr "NA"))
    (hok : validate_and_clean_metadata now fetchRate m0 = .ok out) :
    dLookup out "contract_status" = some (.vstr "Draft") ∧
    dLookup out "contract_tag" = some (.vstr "NA") := by
  obtain ⟨d, st, tag, hd, hcalc, hout⟩ := validate_ok_decomp now fetchRate m0 out hok
  have hv1 : dLookup d "vendor_name" = some (.vstr "NA") := by
    have h1 : dLookup (fillRequired m0) "vendor_name" = some (.vstr "NA") :=
      fillRequired_lookup_preserve m0 _ _ (by decide) hv
    have h2 : dLookup (normalizeDates (fillRequired m0)) "vendor_name" =
        some (.vstr "NA") := by
      rw [normalizeDates_lookup _ _ (by decide) (by decide)]
      exact h1
    exact (fillUsd_lookup fetchRate _ d _ (by decide) hd).trans h2
  have hdr := calc_vendor_na now (getStr d "start_date") (getStr d "end_date") d
    (by simp [dGet, hv1])
  rw [hdr] at hcalc
  simp only [Except.ok.injEq, Prod.mk.injEq] at hcalc
  obtain ⟨h1, h2⟩ := hcalc
  subst h1
  subst h2
  rw [hout]
  exact tail_status_tag_lookup d "Draft" "NA" (by decide) (by decide)

/-- Witness for C9 at a concrete field map. -/
theorem c9_vendor_sentinel_draft_witness :
    dLookup [("vendor_name", PyVal.vstr "NA"),
      ("contract_name", PyVal.vstr "NA"), ("start_date", PyVal.vstr "NA"),
      ("end_date", PyVal.vstr "NA"), ("contract_duration", PyVal.vstr "NA"),
      ("contract_value_local", PyVal.vstr "NA"), ("currency", PyVal.vstr "NA"),
      ("contract_value_usd", PyVal.vstr "NA"), ("contract_status", PyVal.vstr "Draft"),
      ("contract_type", PyVal.vstr "Other"), ("scope_of_services", PyVal.vstr "Other"),
      ("contract_tag", PyVal.vstr "NA"), ("auto_renewal", PyVal.vstr "NA"),
      ("payment_terms", PyVal.vstr "NA"), ("liability_cap", PyVal.vstr "NA"),
      ("termination_for_convenience", PyVal.vstr "NA"),
      ("price_escalation", PyVal.vstr "NA"), ("contract_value", PyVal.vstr "NA")]
      "contract_status" = some (.vstr "Draft") ∧
    dLookup [("vendor_name", PyVal.vstr "NA"),
      ("contract_name", PyVal.vstr "NA"), ("start_date", PyVal.vstr "NA"),
      ("end_date", PyVal.vstr "NA"), ("contract_duration", PyVal.vstr "NA"),
      ("contract_value_local", PyVal.vstr "NA"), ("currency", PyVal.vstr "NA"),
      ("contract_value_usd", PyVal.vstr "NA"), ("contract_status", PyVal.vstr "Draft"),
      ("contract_type", PyVal.vstr "Other"), ("scope_of_services", PyVal.vstr "Other"),
      ("contract_tag", PyVal.vstr "NA"), ("auto_renewal", PyVal.vstr "NA"),
      ("payment_terms", PyVal.vstr "NA"), ("liability_cap", PyVal.vstr "NA"),
      ("termination_for_convenience", PyVal.vstr "NA"),
      ("price_escalation", PyVal.vstr "NA"), ("contract_value", PyVal.vstr "NA")]
      "contract_tag" = some (.vstr "NA") :=
  c9_vendor_sentinel_draft 0 (fun _ => none) [("vendor_name", PyVal.vstr "NA")] _
    rfl (by rfl)

/-- C10: a successful normalization returns a map whose values are all
non-empty (after stripping) strings — never None, empty string or a
non-string — and every required field key is present. -/
theorem c10_normalized_map_invariant (now : Int) (fetchRate : String → Option ℚ)
    (m0 out : PyDict)
    (hok : validate_and_clean_metadata now fetchRate m0 = .ok out) :
    (∀ p ∈ out, ∃ s, p.2 = .vstr s ∧ pyStrip s ≠ "") ∧
    (∀ f ∈ required_fields, dContains out f = true) := by
  obtain ⟨d, st, tag, hd, hcalc, hout⟩ := validate_ok_decomp now fetchRate m0 out hok
  subst hout
  constructor
  · exact nameFallback_inv _ (legacyValue_inv _ (cleanup_inv _))
  · intro f hf
    have h1 : dContains (fillRequired m0) f = true := fillRequired_contains m0 f hf
    have h2 : dContains (normalizeDates (fillRequired m0)) f = true := by
      unfold normalizeDates
      exact dContains_dSet _ _ _ _ (dContains_dSet _ _ _ _ h1)
    have h3 : dContains d f = true := fillUsd_contains fetchRate _ d f h2 hd
    have h4 : dContains (dSet (dSet d "contract_status" (.vstr st)) "contract_tag"
        (.vstr tag)) f = true :=
      dContains_dSet _ _ _ _ (dContains_dSet _ _ _ _ h3)
    exact nameFallback_contains _ _ (legacyValue_contains _ _
      (dContains_cleanup _ _ (validTypeScope_contains _ _ h4)))

/-- Witness for C10 at a field map holding None, an empty string and a
non-string number. -/
theorem c10_normalized_map_invariant_witness :
    (∀ p ∈ [("vendor_name", PyVal.vstr "Acme Corp"),
      ("start_date", PyVal.vstr "15-01-2024"), ("end_date", PyVal.vstr "NA"),
      ("contract_type", PyVal.vstr "Other"), ("payment_terms", PyVal.vstr "30"),
      ("contract_name", PyVal.vstr "Contract with Acme Corp"),
      ("contract_duration", PyVal.vstr "NA"),
      ("contract_value_local", PyVal.vstr "NA"), ("currency", PyVal.vstr "NA"),
      ("contract_value_usd", PyVal.vstr "NA"), ("contract_status", PyVal.vstr "Active"),
      ("scope_of_services", PyVal.vstr "Other"), ("contract_tag", PyVal.vstr "NA"),
      ("auto_renewal", PyVal.vstr "NA"), ("liability_cap", PyVal.vstr "NA"),
      ("termination_for_convenience", PyVal.vstr "NA"),
      ("price_escalation", PyVal.vstr "NA"), ("contract_value", PyVal.vstr "NA")],
      ∃ s, p.2 = PyVal.vstr s ∧ pyStrip s ≠ "") ∧
    (∀ f ∈ required_fields, dContains [("vendor_name", PyVal.vstr "Acme Corp"),
      ("start_date", PyVal.vstr "15-01-2024"), ("end_date", PyVal.vstr "NA"),
      ("contract_type", PyVal.vstr "Other"), ("payment_terms", PyVal.vstr "30"),
      ("contract_name", PyVal.vstr "Contract with Acme Corp"),
      ("contract_duration", PyVal.vstr "NA"),
      ("contract_value_local", PyVal.vstr "NA"), ("currency", PyVal.vstr "NA"),
      ("contract_value_usd", PyVal.vstr "NA"), ("contract_status", PyVal.vstr "Active"),
      ("scope_of_services", PyVal.vstr "Other"), ("contract_tag", PyVal.vstr "NA"),
      ("auto_renewal", PyVal.vstr "NA"), ("liability_cap", PyVal.vstr "NA"),
      ("termination_for_convenience", PyVal.vstr "NA"),
      ("price_escalation", PyVal.vstr "NA"), ("contract_value", PyVal.vstr "NA")]
      f = true) :=
  c10_normalized_map_invariant 0 (fun _ => none)
    [("vendor_name", PyVal.vstr "Acme Corp"), ("start_date", PyVal.vstr "2024-01-15"),
     ("end_date", PyVal.vstr ""), ("contract_type", PyVal.vnone),
     ("payment_terms", PyVal.vint 30)] _ (by rfl)

/-! ## Helper lemmas for C8: the proposed status never survives

`eqExceptFirst k m1 m2`: the two dicts agree everywhere except in the
value stored at the first occurrence of key `k`. -/

def eqExceptFirst (k : String) (m1 m2 : PyDict) : Prop :=
  ∃ pre v w post, (∀ p ∈ pre, p.1 ≠ k) ∧
    m1 = pre ++ (k, v) :: post ∧ m2 = pre ++ (k, w) :: post

theorem dSet_decomp (m : PyDict) (k : String) :
    ∃ pre post, (∀ p ∈ pre, p.1 ≠ k) ∧
      ∀ u, dSet m k u = pre ++ (k, u) :: post := by
  induction m with
  | nil => exact ⟨[], [], by simp, fun u => rfl⟩
  | cons a t ih =>
    by_cases ha : a.1 = k
    · refine ⟨[], t, by simp, fun u => ?_⟩
      obtain ⟨a1, a2⟩ := a
      simp only [dSet]
      rw [if_pos ha]
      rfl
    · obtain ⟨pre, post, hpre, hset⟩ := ih
      refine ⟨a :: pre, post, ?_, fun u => ?_⟩
      · intro p hp
        rcases List.mem_cons.mp hp with rfl | hp
        · exact ha
        · exact hpre p hp
      · obtain ⟨a1, a2⟩ := a
        simp only [dSet]
        rw [if_neg ha]
        simp [hset u]

theorem eqExceptFirst_dSet (m : PyDict) (k : String) (v w : PyVal) :
    eqExceptFirst k (dSet m k v) (dSet m k w) := by
  obtain ⟨pre, post, hpre, hset⟩ := dSet_decomp m k
  exact ⟨pre, v, w, post, hpre, hset v, hset w⟩

theorem dLookup_append_mid_ne (pre post : PyDict) (k k' : String) (v w : PyVal)
    (hk : k' ≠ k) :
    dLookup (pre ++ (k, v) :: post) k' = dLookup (pre ++ (k, w) :: post) k' := by
  induction pre with
  | nil => simp [dLookup, Ne.symm hk]
  | cons a t ih =>
    by_cases ha : a.1 = k'
    · simp [dLookup, ha]
    · simpa [dLookup, ha] using ih

theorem dLookup_append_mid_self (pre post : PyDict) (k : String) (v : PyVal)
    (hpre : ∀ p ∈ pre, p.1 ≠ k) :
    dLookup (pre ++ (k, v) :: post) k = some v := by
  induction pre with
  | nil => simp [dLookup]
  | cons a t ih =>
    have ha : a.1 ≠ k := hpre a (by simp)
    simp only [List.cons_append, dLookup]
    rw [if_neg ha]
    exact ih (fun p hp => hpre p (List.mem_cons_of_mem _ hp))

theorem eqExceptFirst.lookup_ne {k : String} {m1 m2 : PyDict}
    (h : eqExceptFirst k m1 m2) (k' : String) (hk : k' ≠ k) :
    dLookup m1 k' = dLookup m2 k' := by
  obtain ⟨pre, v, w, post, hpre, rfl, rfl⟩ := h
  exact dLookup_append_mid_ne pre post k k' v w hk

theorem eqExceptFirst.getStr_ne {k : String} {m1 m2 : PyDict}
    (h : eqExceptFirst k m1 m2) (k' : String) (hk : k' ≠ k) :
    getStr m1 k' = getStr m2 k' := by
  unfold getStr
  rw [h.lookup_ne k' hk]

theorem eqExceptFirst.dGet_ne {k : String} {m1 m2 : PyDict}
    (h : eqExceptFirst k m1 m2) (k' : String) (d : PyVal) (hk : k' ≠ k) :
    dGet m1 k' d = dGet m2 k' d := by
  unfold dGet
  rw [h.lookup_ne k' hk]

theorem dSet_append_mid_ne (pre : PyDict) (k k' : String) (u : PyVal) (post : PyDict)
    (hpre : ∀ p ∈ pre, p.1 ≠ k) (hk : k' ≠ k) :
    ∃ pre' post', (∀ p ∈ pre', p.1 ≠ k) ∧
      ∀ v, dSet (pre ++ (k, v) :: post) k' u = pre' ++ (k, v) :: post' := by
  induction pre with
  | nil =>
    refine ⟨[], dSet post k' u, by simp, fun v => ?_⟩
    simp only [List.nil_append, dSet]
    rw [if_neg (by exact fun hh => hk hh.symm)]
  | cons a t ih =>
    have ha : a.1 ≠ k := hpre a (by simp)
    by_cases hak : a.1 = k'
    · refine ⟨(k', u) :: t, post, ?_, fun v => ?_⟩
      · intro p hp
        rcases List.mem_cons.mp hp with rfl | hp
        · exact hk
        · exact hpre p (List.mem_cons_of_mem _ hp)
      · obtain ⟨a1, a2⟩ := a
        simp only [List.cons_append, dSet]
        rw [if_pos hak]
        rfl
    · obtain ⟨pre', post', hpre', hset⟩ :=
        ih (fun p hp => hpre p (List.mem_cons_of_mem _ hp))
      refine ⟨a :: pre', post', ?_, fun v => ?_⟩
      · intro p hp
        rcases List.mem_cons.mp hp with rfl | hp
        · exact ha
        · exact hpre' p hp
      · obtain ⟨a1, a2⟩ := a
        simp only [List.cons_append, dSet]
        rw [if_neg hak]
        simp [hset v]

theorem eqExceptFirst.set_ne {k : String} {m1 m2 : PyDict}
    (h : eqExceptFirst k m1 m2) (k' : String) (u : PyVal) (hk : k' ≠ k) :
    eqExceptFirst k (dSet m1 k' u) (dSet m2 k' u) := by
  obtain ⟨pre, v, w, post, hpre, rfl, rfl⟩ := h
  obtain ⟨pre', post', hpre', hset⟩ := dSet_append_mid_ne pre k k' u post hpre hk
  exact ⟨pre', v, w, post', hpre', hset v, hset w⟩

theorem dSet_append_mid_self (pre post : PyDict) (k : String) (v u : PyVal)
    (hpre : ∀ p ∈ pre, p.1 ≠ k) :
    dSet (pre ++ (k, v) :: post) k u = pre ++ (k, u) :: post := by
  induction pre with
  | nil =>
    simp [dSet]
  | cons a t ih =>
    have ha : a.1 ≠ k := hpre a (by simp)
    obtain ⟨a1, a2⟩ := a
    simp only [List.cons_append, dSet]
    rw [if_neg ha]
    simp [ih (fun p hp => hpre p (List.mem_cons_of_mem _ hp))]

/-- Setting the tracked key to one value on both sides collapses the
relation to equality. -/
theorem eqExceptFirst.set_same_collapse {k : String} {m1 m2 : PyDict}
    (h : eqExceptFirst k m1 m2) (u : PyVal) :
    dSet m1 k u = dSet m2 k u := by
  obtain ⟨pre, v, w, post, hpre, rfl, rfl⟩ := h
  rw [dSet_append_mid_self pre post k v u hpre, dSet_append_mid_self pre post k w u hpre]

/-- Setting the tracked key on only one side preserves the relation. -/
theorem eqExceptFirst.set_k_left {k : String} {m1 m2 : PyDict}
    (h : eqExceptFirst k m1 m2) (u : PyVal) :
    eqExceptFirst k (dSet m1 k u) m2 := by
  obtain ⟨pre, v, w, post, hpre, rfl, rfl⟩ := h
  rw [dSet_append_mid_self pre post k v u hpre]
  exact ⟨pre, u, w, post, hpre, rfl, rfl⟩

theorem eqExceptFirst.set_k_right {k : String} {m1 m2 : PyDict}
    (h : eqExceptFirst k m1 m2) (u : PyVal) :
    eqExceptFirst k m1 (dSet m2 k u) := by
  obtain ⟨pre, v, w, post, hpre, rfl, rfl⟩ := h
  rw [dSet_append_mid_self pre post k w u hpre]
  exact ⟨pre, v, u, post, hpre, rfl, rfl⟩

theorem eqExceptFirst.lookup_isSome {k : String} {m1 m2 : PyDict}
    (h : eqExceptFirst k m1 m2) :
    (dLookup m1 k).isSome = true ∧ (dLookup m2 k).isSome = true := by
  obtain ⟨pre, v, w, post, hpre, rfl, rfl⟩ := h
  rw [dLookup_append_mid_self pre post k v hpre,
      dLookup_append_mid_self pre post k w hpre]
  exact ⟨rfl, rfl⟩

/-- One conditional-fill step of `fillRequired` preserves the relation. -/
theorem eqExceptFirst.fill_step {k : String} {m1 m2 : PyDict}
    (h : eqExceptFirst k m1 m2) (g : String) :
    eqExceptFirst k
      (if dLookup m1 g = none || dLookup m1 g = some .vnone then dSet m1 g (.vstr "NA")
       else m1)
      (if dLookup m2 g = none || dLookup m2 g = some .vnone then dSet m2 g (.vstr "NA")
       else m2) := by
  by_cases hg : g = k
  · subst hg
    split
    · split
      · exact (h.set_k_left _).set_k_right _
      · exact h.set_k_left _
    · split
      · exact h.set_k_right _
      · exact h
  · rw [h.lookup_ne g hg]
    split
    · exact h.set_ne g _ hg
    · exact h

theorem eqExceptFirst.fillRequired_rel {k : String} {m1 m2 : PyDict}
    (h : eqExceptFirst k m1 m2) :
    eqExceptFirst k (fillRequired m1) (fillRequired m2) := by
  have main : ∀ fs : List String, ∀ m1 m2 : PyDict, eqExceptFirst k m1 m2 →
      eqExceptFirst k
        (fs.foldl (fun m f =>
          if dLookup m f = none || dLookup m f = some .vnone then dSet m f (.vstr "NA")
          else m) m1)
        (fs.foldl (fun m f =>
          if dLookup m f = none || dLookup m f = some .vnone then dSet m f (.vstr "NA")
          else m) m2) := by
    intro fs
    induction fs with
    | nil => intro m1 m2 h; exact h
    | cons g gs ih =>
      intro m1 m2 h
      simp only [List.foldl_cons]
      exact ih _ _ (h.fill_step g)
  exact main required_fields m1 m2 h

theorem eqExceptFirst.normalizeDates_rel {m1 m2 : PyDict}
    (h : eqExceptFirst "contract_status" m1 m2) :
    eqExceptFirst "contract_status" (normalizeDates m1) (normalizeDates m2) := by
  simp only [normalizeDates]
  rw [h.dGet_ne "start_date" _ (by decide)]
  have h1 := h.set_ne "start_date"
    (.vstr (normalize_date (pyStr (dGet m2 "start_date" (.vstr "NA"))))) (by decide)
  rw [h1.dGet_ne "end_date" _ (by decide)]
  exact h1.set_ne "end_date" _ (by decide)

theorem eqExceptFirst.fillUsd_rel (fr : String → Option ℚ) {m1 m2 : PyDict}
    (h : eqExceptFirst "contract_status" m1 m2) :
    (∃ e, fillUsd fr m1 = .error e ∧ fillUsd fr m2 = .error e) ∨
    (∃ d1 d2, fillUsd fr m1 = .ok d1 ∧ fillUsd fr m2 = .ok d2 ∧
      eqExceptFirst "contract_status" d1 d2) := by
  unfold fillUsd
  rw [h.dGet_ne "contract_value_local" _ (by decide),
      h.dGet_ne "currency" _ (by decide),
      h.lookup_ne "contract_value_usd" (by decide)]
  by_cases hc : dLookup m2 "contract_value_usd" = none ||
      dLookup m2 "contract_value_usd" = some (.vstr "NA") ||
      dLookup m2 "contract_value_usd" = some (.vstr "") ||
      dLookup m2 "contract_value_usd" = some .vnone
  · rw [if_pos hc, if_pos hc]
    cases hcv : convert_currency_to_usd fr (dGet m2 "contract_value_local" (.vstr "NA"))
        (dGet m2 "currency" (.vstr "NA")) with
    | error e => exact Or.inl ⟨e, rfl, rfl⟩
    | ok usd =>
      exact Or.inr ⟨_, _, rfl, rfl, h.set_ne "contract_value_usd" _ (by decide)⟩
  · rw [if_neg hc, if_neg hc]
    exact Or.inr ⟨m1, m2, rfl, rfl, h⟩

theorem eqExceptFirst.calc_eq (now : Int) {m1 m2 : PyDict}
    (h : eqExceptFirst "contract_status" m1 m2) :
    calc_contract_status_and_tag now (getStr m1 "start_date") (getStr m1 "end_date") m1 =
    calc_contract_status_and_tag now (getStr m2 "start_date") (getStr m2 "end_date") m2 := by
  rw [h.getStr_ne "start_date" (by decide), h.getStr_ne "end_date" (by decide)]
  unfold calc_contract_status_and_tag
  rw [h.dGet_ne "vendor_name" _ (by decide)]

/-- The combined relation across `afterUsd`. -/
theorem eqExceptFirst.afterUsd_rel (fr : String → Option ℚ) {m1 m2 : PyDict}
    (h : eqExceptFirst "contract_status" m1 m2) :
    (∃ e, afterUsd fr m1 = .error e ∧ afterUsd fr m2 = .error e) ∨
    (∃ d1 d2, afterUsd fr m1 = .ok d1 ∧ afterUsd fr m2 = .ok d2 ∧
      eqExceptFirst "contract_status" d1 d2) := by
  unfold afterUsd
  exact (h.fillRequired_rel.normalizeDates_rel).fillUsd_rel fr

theorem status_tag_strip (st tag : String)
    (hst : st ∈ ["Draft", "Active", "Expired"])
    (htag : tag ∈ ["NA", "Expiry < 30 days", "Expiry 30 to 90 days",
      "Expiry > 90 days"]) :
    pyStrip st ≠ "" ∧ pyStrip tag ≠ "" := by
  constructor
  · simp only [List.mem_cons, List.not_mem_nil, or_false] at hst
    rcases hst with rfl | rfl | rfl <;> decide
  · simp only [List.mem_cons, List.not_mem_nil, or_false] at htag
    rcases htag with rfl | rfl | rfl | rfl <;> decide

/-- C8: the collaborator-proposed `contract_status` value never
survives normalization — replacing it by ANY other value leaves the
entire normalized output unchanged — and on every successful run the
stored status/tag pair is exactly the one derived from the normalized
dates and the vendor-name check. -/
theorem c8_derived_status_overrides (now : Int) (fr : String → Option ℚ)
    (m : PyDict) (v w : PyVal) :
    validate_and_clean_metadata now fr (dSet m "contract_status" v) =
      validate_and_clean_metadata now fr (dSet m "contract_status" w) ∧
    (∀ out, validate_and_clean_metadata now fr m = .ok out →
      ∃ st tag, derivedStatusTag now fr m = .ok (st, tag) ∧
        dLookup out "contract_status" = some (.vstr st) ∧
        dLookup out "contract_tag" = some (.vstr tag)) := by
  constructor
  · have h0 := eqExceptFirst_dSet m "contract_status" v w
    unfold validate_and_clean_metadata
    rcases h0.afterUsd_rel fr with ⟨e, he1, he2⟩ | ⟨d1, d2, hd1, hd2, hrel⟩
    · rw [he1, he2]
    · rw [hd1, hd2]
      simp only [Bind.bind, Except.bind]
      rw [hrel.calc_eq now]
      cases hc : calc_contract_status_and_tag now (getStr d2 "start_date")
          (getStr d2 "end_date") d2 with
      | error e => rfl
      | ok p =>
        obtain ⟨st, tag⟩ := p
        simp only []
        rw [hrel.set_same_collapse (.vstr st)]
  · intro out hok
    obtain ⟨d, st, tag, hd, hcalc, hout⟩ := validate_ok_decomp now fr m out hok
    have hmem := calc_status_tag_mem now _ _ _ _ _ hcalc
    obtain ⟨hst, htag⟩ := status_tag_strip st tag hmem.1 hmem.2
    refine ⟨st, tag, ?_, ?_⟩
    · unfold derivedStatusTag
      rw [hd]
      simp only [Bind.bind, Except.bind]
      exact hcalc
    · rw [hout]
      exact tail_status_tag_lookup d st tag hst htag

/-- Witness for C8 at a concrete field map: replacing the proposed
status "Expired" by None leaves the output unchanged, and the stored
status is the derived one. -/
theorem c8_derived_status_overrides_witness :
    validate_and_clean_metadata 0 (fun _ => none)
      (dSet [("vendor_name", PyVal.vstr "NA")] "contract_status" (PyVal.vstr "Expired")) =
    validate_and_clean_metadata 0 (fun _ => none)
      (dSet [("vendor_name", PyVal.vstr "NA")] "contract_status" PyVal.vnone) ∧
    (∃ st tag, derivedStatusTag 0 (fun _ => none) [("vendor_name", PyVal.vstr "NA")] =
        .ok (st, tag) ∧
      dLookup [("vendor_name", PyVal.vstr "NA"),
        ("contract_name", PyVal.vstr "NA"), ("start_date", PyVal.vstr "NA"),
        ("end_date", PyVal.vstr "NA"), ("contract_duration", PyVal.vstr "NA"),
        ("contract_value_local", PyVal.vstr "NA"), ("currency", PyVal.vstr "NA"),
        ("contract_value_usd", PyVal.vstr "NA"), ("contract_status", PyVal.vstr "Draft"),
        ("contract_type", PyVal.vstr "Other"), ("scope_of_services", PyVal.vstr "Other"),
        ("contract_tag", PyVal.vstr "NA"), ("auto_renewal", PyVal.vstr "NA"),
        ("payment_terms", PyVal.vstr "NA"), ("liability_cap", PyVal.vstr "NA"),
        ("termination_for_convenience", PyVal.vstr "NA"),
        ("price_escalation", PyVal.vstr "NA"), ("contract_value", PyVal.vstr "NA")]
        "contract_status" = some (.vstr st) ∧
      dLookup [("vendor_name", PyVal.vstr "NA"),
        ("contract_name", PyVal.vstr "NA"), ("start_date", PyVal.vstr "NA"),
        ("end_date", PyVal.vstr "NA"), ("contract_duration", PyVal.vstr "NA"),
        ("contract_value_local", PyVal.vstr "NA"), ("currency", PyVal.vstr "NA"),
        ("contract_value_usd", PyVal.vstr "NA"), ("contract_status", PyVal.vstr "Draft"),
        ("contract_type", PyVal.vstr "Other"), ("scope_of_services", PyVal.vstr "Other"),
        ("contract_tag", PyVal.vstr "NA"), ("auto_renewal", PyVal.vstr "NA"),
        ("payment_terms", PyVal.vstr "NA"), ("liability_cap", PyVal.vstr "NA"),
        ("termination_for_convenience", PyVal.vstr "NA"),
        ("price_escalation", PyVal.vstr "NA"), ("contract_value", PyVal.vstr "NA")]
        "contract_tag" = some (.vstr tag)) :=
  ⟨(c8_derived_status_overrides 0 (fun _ => none) [("vendor_name", PyVal.vstr "NA")]
      (PyVal.vstr "Expired") PyVal.vnone).1,
   (c8_derived_status_overrides 0 (fun _ => none) [("vendor_name", PyVal.vstr "NA")]
      (PyVal.vstr "Expired") PyVal.vnone).2 _ (by rfl)⟩
